import Mathlib

/-!
BlackjackSimulator: the client's components as pure functions

The repository's source is a React client (`App.jsx`, `Hand.jsx`, `Card.jsx`,
`StatisticsOverlay.jsx`, `SimulationPanel.jsx`, `StrategyTester.jsx`).  Each
component is embedded as a function from its props and state to a small view
tree; each asynchronous handler as a function from the state before the call
and the responses of the service to the state after the call and the requests
it made.

Conventions of the embedding:
* JavaScript strings are `String`; `null` state is `Option.none`.
* Currency amounts and hand values are `Int`, probabilities and rates are `ℚ`,
  and numbers that may be NaN (form fields read with `parseInt` or `Number`)
  are `JsNum`; `parseInt` rounds the integer it reads to a double (to
  Infinity from 2^1024 on), other arithmetic is exact.
* `String.prototype.toUpperCase` is a parameter `upper` of the definitions
  that call it.
* A handler runs to completion without another handler interleaving.
-/

namespace Blackjack

/-! ## Payloads of the game service -/

/-- A card of the game-state payload (`card.rank`, `card.suit`). -/
structure CardData where
  rank : String
  suit : String
deriving DecidableEq, Repr

/-- A hand of the game-state payload, with the fields `Hand.jsx` reads. -/
structure HandData where
  cards : List CardData
  value : Int
  is_soft : Bool
  is_blackjack : Bool
  is_bust : Bool
  bet : Int
deriving DecidableEq, Repr

/-- The `deck_info` object of the game state. -/
structure DeckInfo where
  remaining_cards : Int
  true_count : ℚ
deriving DecidableEq, Repr

/-- The game state the service returns and `App.jsx` keeps in `gameState`. -/
structure GameState where
  state : String
  dealer_hand : HandData
  player_hands : List HandData
  current_hand_index : Int
  valid_actions : List String
  player_bankroll : Int
  deck_info : DeckInfo
deriving DecidableEq, Repr

/-- One entry of the results list (`result.result`, `result.net`). -/
structure RoundResult where
  result : String
  net : Int
deriving DecidableEq, Repr

/-! ## Card.jsx -/

/-- What `Card` renders: the blue back with a question mark, or the face. -/
inductive CardView where
  | back
  | face (rank suit textColor : String)
deriving DecidableEq, Repr

/-- The component `Card` of Card.jsx: `({ card, hidden })`. -/
def Card (card : CardData) (hidden : Bool) : CardView :=
  if hidden then
    CardView.back
  else
    let isRed := card.suit == "♥" || card.suit == "♦"
    let textColor := if isRed then "text-red-600" else "text-black"
    CardView.face card.rank card.suit textColor

/-! ## Hand.jsx -/

/-- The span after the title of a hand: `Value: {hand.value}` and its suffixes. -/
structure ValueLine where
  value : Int
  softSuffix : Bool
  blackjackSuffix : Bool
  bustSuffix : Bool
deriving DecidableEq, Repr

/-- What `Hand` renders. -/
structure HandView where
  ring : Bool
  cards : List CardView
  title : String
  valueLine : Option ValueLine
  betLine : Option Int
deriving DecidableEq, Repr

/-- The props `Hand` passes to each `Card`, in order: the card and
`hidden={isDealer && index === 0 && hideFirstCard}`. -/
def Hand.cardProps (hand : HandData) (isDealer hideFirstCard : Bool) :
    List (CardData × Bool) :=
  hand.cards.enum.map fun p => (p.2, isDealer && p.1 == 0 && hideFirstCard)

/-- The component `Hand` of Hand.jsx: `({ hand, isDealer, hideFirstCard, isActive })`. -/
def Hand (hand : HandData) (isDealer hideFirstCard isActive : Bool) : HandView :=
  { ring := isActive
    cards := (Hand.cardProps hand isDealer hideFirstCard).map fun p => Card p.1 p.2
    title := if isDealer then "Dealer" else "Player"
    valueLine :=
      if !hideFirstCard then
        some { value := hand.value
               softSuffix := hand.is_soft && !hand.is_bust
               blackjackSuffix := hand.is_blackjack
               bustSuffix := hand.is_bust }
      else none
    betLine := if !isDealer && decide (hand.bet > 0) then some hand.bet else none }

/-! ## App.jsx: the derived flags and the dealer's hand -/

/-- `const isPlayerTurn = gameState.state === 'player_turn'`. -/
def isPlayerTurn (gameState : GameState) : Bool := gameState.state == "player_turn"

/-- `const isDealerTurn = gameState.state === 'dealer_turn'`. -/
def isDealerTurn (gameState : GameState) : Bool := gameState.state == "dealer_turn"

/-- `const isRoundOver = gameState.state === 'round_over'`. -/
def isRoundOver (gameState : GameState) : Bool := gameState.state == "round_over"

/-- `const isBetting = gameState.state === 'betting'`. -/
def isBetting (gameState : GameState) : Bool := gameState.state == "betting"

/-- The `hideFirstCard` prop App gives the dealer's hand:
`!isRoundOver && !isDealerTurn`. -/
def App.hideFirstCard (gameState : GameState) : Bool :=
  !isRoundOver gameState && !isDealerTurn gameState

/-- The `hidden` props the dealer's cards receive on the play screen, in order. -/
def App.dealerHidden (gameState : GameState) : List Bool :=
  (Hand.cardProps gameState.dealer_hand true (App.hideFirstCard gameState)).map Prod.snd

/-- The dealer's hand as the play screen renders it. -/
def App.dealerHand (gameState : GameState) : HandView :=
  Hand gameState.dealer_hand true (App.hideFirstCard gameState) false

/-- A game state in `player_turn`: dealer K♠ 7♥, player 10♦ 6♣. -/
def exPlayerTurn : GameState :=
  { state := "player_turn"
    dealer_hand :=
      { cards := [⟨"K", "♠"⟩, ⟨"7", "♥"⟩], value := 17, is_soft := false,
        is_blackjack := false, is_bust := false, bet := 0 }
    player_hands :=
      [{ cards := [⟨"10", "♦"⟩, ⟨"6", "♣"⟩], value := 16, is_soft := false,
         is_blackjack := false, is_bust := false, bet := 25 }]
    current_hand_index := 0
    valid_actions := ["hit", "stand", "double", "surrender"]
    player_bankroll := 975
    deck_info := { remaining_cards := 308, true_count := 0 } }

/-! ## JavaScript numbers -/

/-- A JavaScript number as the client handles it: NaN, a finite value, or one
of the two infinities. -/
inductive JsNum where
  | nan
  | num (q : ℚ)
  | infinity
  | negInfinity
deriving DecidableEq, Repr

/-- The number is a (mathematical) integer. -/
def JsNum.IsInteger (v : JsNum) : Prop := ∃ n : Int, v = JsNum.num n

/-- The expression `v || d` for a number `v`: NaN and 0 are falsy, every other
number (the infinities too) is truthy. -/
def JsNum.orElse (v d : JsNum) : JsNum :=
  match v with
  | JsNum.nan => d
  | JsNum.num q => if q = 0 then d else JsNum.num q
  | JsNum.infinity => JsNum.infinity
  | JsNum.negInfinity => JsNum.negInfinity

/-! ## App.jsx: state, requests and handlers -/

/-- The state hooks of `App`. -/
structure AppState where
  sessionId : Option String
  gameState : Option GameState
  betAmount : JsNum
  loading : Bool
  results : Option (List RoundResult)
  activeTab : String
  showStatistics : Bool
deriving DecidableEq, Repr

/-- The initial values of the hooks. -/
def AppState.initial : AppState :=
  { sessionId := none, gameState := none, betAmount := JsNum.num 25, loading := false,
    results := none, activeTab := "play", showStatistics := false }

/-- A request `App` sends to the game service. -/
inductive Request where
  | newGame
  | bet (sessionId : String) (amount : JsNum)
  | action (sessionId : String) (action : String)
  | results (sessionId : String)
  | newRound (sessionId : String)
deriving DecidableEq, Repr

/-- How an awaited request settles: resolved with `response.data`, or rejected. -/
inductive Reply (α : Type) where
  | ok (data : α)
  | failed
deriving DecidableEq, Repr

/-- The data of `POST /game/new`. -/
structure NewGameData where
  session_id : String
  game_state : GameState
deriving DecidableEq, Repr

/-- The data of `POST /game/{id}/new-round`. -/
structure NewRoundData where
  game_state : GameState
deriving DecidableEq, Repr

/-- The data of `GET /game/{id}/results`. -/
structure ResultsData where
  results : List RoundResult
deriving DecidableEq, Repr

/-- The session id when it is truthy (`!sessionId` is false): neither `null`
nor the empty string. -/
def truthySession (sessionId : Option String) : Option String :=
  match sessionId with
  | none => none
  | some sid => if sid = "" then none else some sid

/-- The handler `startNewGame`: returns the state after the call and the
requests made. -/
def startNewGame (st : AppState) (reply : Reply NewGameData) : AppState × List Request :=
  match reply with
  | Reply.ok data =>
    ({ st with sessionId := some data.session_id, gameState := some data.game_state,
               results := none }, [Request.newGame])
  | Reply.failed => (st, [Request.newGame])

/-- The handler `placeBet`. -/
def placeBet (st : AppState) (reply : Reply GameState) : AppState × List Request :=
  match truthySession st.sessionId with
  | none => (st, [])
  | some sid =>
    let st1 := { st with loading := true }
    let st2 :=
      match reply with
      | Reply.ok data => { st1 with gameState := some data, results := none }
      | Reply.failed => st1
    ({ st2 with loading := false }, [Request.bet sid st.betAmount])

/-- The handler `performAction`: `reply` settles the action request and
`resultsReply` the results request, which is awaited only when the action's
response has state `round_over`. -/
def performAction (st : AppState) (action : String) (reply : Reply GameState)
    (resultsReply : Reply ResultsData) : AppState × List Request :=
  match truthySession st.sessionId with
  | none => (st, [])
  | some sid =>
    let st1 := { st with loading := true }
    match reply with
    | Reply.ok data =>
      let st2 := { st1 with gameState := some data }
      if data.state == "round_over" then
        let st3 :=
          match resultsReply with
          | Reply.ok resultsData => { st2 with results := some resultsData.results }
          | Reply.failed => st2
        ({ st3 with loading := false }, [Request.action sid action, Request.results sid])
      else
        ({ st2 with loading := false }, [Request.action sid action])
    | Reply.failed => ({ st1 with loading := false }, [Request.action sid action])

/-- The handler `startNewRound`. -/
def startNewRound (st : AppState) (reply : Reply NewRoundData) : AppState × List Request :=
  match truthySession st.sessionId with
  | none => (st, [])
  | some sid =>
    let st1 := { st with loading := true }
    let st2 :=
      match reply with
      | Reply.ok data => { st1 with gameState := some data.game_state, results := none }
      | Reply.failed => st1
    ({ st2 with loading := false }, [Request.newRound sid])

/-! ## App.jsx: the play screen -/

/-- The handler a button's `onClick` calls. -/
inductive Handler where
  | placeBet
  | performAction (action : String)
  | startNewRound
deriving DecidableEq, Repr

/-- A button of the play screen. -/
structure Button where
  onClick : Handler
  disabled : Bool
  label : String
deriving DecidableEq, Repr

/-- One line of the results block. -/
structure ResultLine where
  handNumber : Nat
  colour : String
  text : String
  plusSign : Bool
  net : Int
deriving DecidableEq, Repr

/-- The bet form rendered while betting. -/
structure BetForm where
  value : JsNum
  button : Button
deriving DecidableEq, Repr

/-- The part of the play screen below the game info. -/
structure PlayScreen where
  bankroll : Int
  remainingCards : Int
  trueCount : ℚ
  dealer : HandView
  players : List HandView
  results : Option (List ResultLine)
  betForm : Option BetForm
  actions : Option (List Button)
  newRound : Option Button
deriving DecidableEq, Repr

/-- The text of an action button:
`action.charAt(0).toUpperCase() + action.slice(1)`; `upper` stands for
`String.prototype.toUpperCase`. -/
def App.actionLabel (upper : String → String) (action : String) : String :=
  upper (action.take 1) ++ action.drop 1

/-- The buttons of `gameState.valid_actions.map(action => <button ...>)`. -/
def App.actionButtons (upper : String → String) (gameState : GameState) (loading : Bool) :
    List Button :=
  gameState.valid_actions.map fun action =>
    { onClick := Handler.performAction action
      disabled := loading
      label := App.actionLabel upper action }

/-- The lines of `results.map((result, index) => ...)`. -/
def App.resultLines (upper : String → String) (results : List RoundResult) : List ResultLine :=
  results.enum.map fun (p : Nat × RoundResult) =>
    { handNumber := p.1 + 1
      colour :=
        if p.2.result == "win" || p.2.result == "blackjack" then "text-green-400"
        else if p.2.result == "lose" then "text-red-400"
        else "text-yellow-400"
      text := upper p.2.result
      plusSign := decide (0 < p.2.net)
      net := p.2.net }

/-- The play screen `App` renders for a non-null `gameState` on the tab `play`. -/
def App.playScreen (upper : String → String) (st : AppState) (gameState : GameState) :
    PlayScreen :=
  { bankroll := gameState.player_bankroll
    remainingCards := gameState.deck_info.remaining_cards
    trueCount := gameState.deck_info.true_count
    dealer := App.dealerHand gameState
    players :=
      gameState.player_hands.enum.map fun p =>
        Hand p.2 false false
          (isPlayerTurn gameState && decide (Int.ofNat p.1 = gameState.current_hand_index))
    results := st.results.map (App.resultLines upper)
    betForm :=
      if isBetting gameState then
        some { value := st.betAmount
               button := { onClick := Handler.placeBet, disabled := st.loading,
                           label := "Place Bet & Deal" } }
      else none
    actions :=
      if isPlayerTurn gameState then some (App.actionButtons upper gameState st.loading)
      else none
    newRound :=
      if isRoundOver gameState then
        some { onClick := Handler.startNewRound, disabled := st.loading, label := "New Round" }
      else none }

/-- Running a handler of the play screen on the state `st`; the replies are
those of the requests the handler may make. -/
def Handler.run (h : Handler) (st : AppState) (gameReply : Reply GameState)
    (resultsReply : Reply ResultsData) : AppState × List Request :=
  match h with
  | Handler.placeBet => Blackjack.placeBet st gameReply
  | Handler.performAction action => Blackjack.performAction st action gameReply resultsReply
  | Handler.startNewRound =>
    Blackjack.startNewRound st
      (match gameReply with
       | Reply.ok data => Reply.ok { game_state := data }
       | Reply.failed => Reply.failed)

/-- The actions the play screen offers, in order: the argument each action
button passes to `performAction`. -/
def App.offeredActions (screen : PlayScreen) : List String :=
  match screen.actions with
  | none => []
  | some buttons =>
    buttons.filterMap fun b =>
      match b.onClick with
      | Handler.performAction action => some action
      | _ => none

/-- A state of `App` after the session started and a bet was placed. -/
def exAppState : AppState :=
  { sessionId := some "s-1", gameState := some exPlayerTurn, betAmount := JsNum.num 25,
    loading := false, results := none, activeTab := "play", showStatistics := true }

/-- The state `exPlayerTurn` after the player stood and the round was settled. -/
def exRoundOver : GameState :=
  { exPlayerTurn with
    state := "round_over", valid_actions := [], player_bankroll := 1000 }

/-- The results of `exRoundOver`: the hand won its bet. -/
def exResultsReply : Reply ResultsData :=
  Reply.ok { results := [{ result := "win", net := 25 }] }

/-! ## StatisticsOverlay.jsx -/

/-- The `player_hand` object of the statistics payload. -/
structure PlayerHandStats where
  value : Int
  is_soft : Bool
  strength : String
  bust_probability : ℚ
deriving DecidableEq, Repr

/-- The `dealer` object of the statistics payload. -/
structure DealerStats where
  up_card : CardData
  bust_probability : ℚ
  final_value_probabilities : Option (List (String × ℚ))
deriving DecidableEq, Repr

/-- The `outcome_probabilities` object of the statistics payload. -/
structure OutcomeProbabilities where
  win : ℚ
  lose : ℚ
  push : ℚ
deriving DecidableEq, Repr

/-- The `recommendation` object of the statistics payload. -/
structure Recommendation where
  action : String
  explanation : String
deriving DecidableEq, Repr

/-- The data of `GET /game/{id}/statistics`. -/
structure Statistics where
  available : Bool
  player_hand : Option PlayerHandStats
  dealer : Option DealerStats
  outcome_probabilities : Option OutcomeProbabilities
  recommendation : Option Recommendation
  expected_values : Option (List (String × ℚ))
  true_count : Option ℚ
deriving DecidableEq, Repr

/-- The props of `StatisticsOverlay`. -/
structure OverlayProps where
  sessionId : Option String
  gameState : GameState
  enabled : Bool
deriving DecidableEq, Repr

/-- A mounted `StatisticsOverlay`: the props of its last render, its two state
hooks, and the number of statistics requests not yet settled. -/
structure Overlay where
  props : OverlayProps
  statistics : Option Statistics
  loading : Bool
  pending : Nat
deriving DecidableEq, Repr

/-- The panel the overlay renders when it renders anything; every section of
it is computed from `statistics`. -/
structure OverlayView where
  statistics : Statistics
deriving DecidableEq, Repr

/-- The condition of the effect:
`enabled && sessionId && gameState.state === 'player_turn'`. -/
def StatisticsOverlay.effectCondition (p : OverlayProps) : Bool :=
  p.enabled && (truthySession p.sessionId).isSome && p.gameState.state == "player_turn"

/-- One of the effect's dependencies
`[enabled, sessionId, gameState.state, gameState.current_hand_index]` differs. -/
def StatisticsOverlay.depsChanged (old new : OverlayProps) : Bool :=
  old.enabled != new.enabled || old.sessionId != new.sessionId ||
    old.gameState.state != new.gameState.state ||
    old.gameState.current_hand_index != new.gameState.current_hand_index

/-- The effect body: under its condition `fetchStatistics` starts, which sets
`loading` and sends the request. -/
def StatisticsOverlay.runEffect (o : Overlay) : Overlay :=
  if StatisticsOverlay.effectCondition o.props then
    { o with loading := true, pending := o.pending + 1 }
  else o

/-- Mounting the overlay with props `p`: initial hooks, then the effect. -/
def StatisticsOverlay.mount (p : OverlayProps) : Overlay :=
  StatisticsOverlay.runEffect { props := p, statistics := none, loading := false, pending := 0 }

/-- A render with new props; the effect runs when a dependency changed. -/
def StatisticsOverlay.rerender (o : Overlay) (p : OverlayProps) : Overlay :=
  if StatisticsOverlay.depsChanged o.props p then
    StatisticsOverlay.runEffect { o with props := p }
  else { o with props := p }

/-- The rest of `fetchStatistics` once its request settles. -/
def StatisticsOverlay.settle (o : Overlay) (reply : Reply Statistics) : Overlay :=
  if o.pending = 0 then o
  else
    let o1 :=
      match reply with
      | Reply.ok data => if data.available then { o with statistics := some data } else o
      | Reply.failed => o
    { o1 with loading := false, pending := o.pending - 1 }

/-- What the overlay returns: `null` when
`!enabled || !statistics || !statistics.available`, the panel otherwise. -/
def StatisticsOverlay.render (o : Overlay) : Option OverlayView :=
  match o.statistics with
  | none => none
  | some statistics =>
    if !o.props.enabled || !statistics.available then none
    else some { statistics := statistics }

/-- What can happen to a mounted overlay: its parent renders it with new props
(`enabled`, `sessionId`, `gameState`), or a statistics request settles. -/
inductive OverlayEvent where
  | props (p : OverlayProps)
  | reply (r : Reply Statistics)
deriving DecidableEq, Repr

/-- One event. -/
def StatisticsOverlay.step (o : Overlay) (e : OverlayEvent) : Overlay :=
  match e with
  | OverlayEvent.props p => StatisticsOverlay.rerender o p
  | OverlayEvent.reply r => StatisticsOverlay.settle o r

/-- The overlay after mounting with `p` and the events `es`, in order. -/
def StatisticsOverlay.run (p : OverlayProps) (es : List OverlayEvent) : Overlay :=
  es.foldl StatisticsOverlay.step (StatisticsOverlay.mount p)

/-- A statistics payload for `exPlayerTurn`: hard 16 against a king. -/
def exStatistics : Statistics :=
  { available := true
    player_hand := some { value := 16, is_soft := false, strength := "Weak",
                          bust_probability := 8 / 13 }
    dealer := none
    outcome_probabilities := none
    recommendation := some { action := "hit", explanation := "Hard 16 against a ten" }
    expected_values := none
    true_count := some 0 }

/-- The props of the overlay during the player's turn, statistics switched on. -/
def exOverlayProps : OverlayProps :=
  { sessionId := some "s-1", gameState := exPlayerTurn, enabled := true }

/-- The events of one round played with statistics switched on: the
statistics of the player's turn arrive, then the player stands and the play
screen renders the overlay with the settled round. -/
def exOverlayEvents : List OverlayEvent :=
  [OverlayEvent.reply (Reply.ok exStatistics),
   OverlayEvent.props { exOverlayProps with gameState := exRoundOver }]

/-! ## Number formatting and parsing -/

/-- The method `Number.prototype.toFixed(f)` on an exact value below 10^21:
the sign, then the integer nearest to `x * 10^f` (the larger one on a tie)
written with `f` digits after the point. -/
def toFixed (x : ℚ) (f : Nat) : String :=
  let sign := if x < 0 then "-" else ""
  let n := (|x| * 10 ^ f + 1 / 2).floor.toNat
  let m := toString n
  if f = 0 then sign ++ m
  else
    let m := if m.length ≤ f then "".pushn '0' (f + 1 - m.length) ++ m else m
    sign ++ m.take (m.length - f) ++ "." ++ m.drop (m.length - f)

/-- The characters `parseInt` skips at the start of its input (white space and
line terminators). -/
def isStrWhiteSpaceChar (c : Char) : Bool :=
  c.toNat ∈ [0x9, 0xA, 0xB, 0xC, 0xD, 0x20, 0xA0, 0x1680, 0x2028, 0x2029, 0x202F, 0x205F,
    0x3000, 0xFEFF] || (0x2000 ≤ c.toNat && c.toNat ≤ 0x200A)

/-- The value of a character as a digit of the given radix, if it is one. -/
def radixDigit (radix : Nat) (c : Char) : Option Nat :=
  let v :=
    if '0' ≤ c ∧ c ≤ '9' then some (c.toNat - '0'.toNat)
    else if 'a' ≤ c ∧ c ≤ 'z' then some (c.toNat - 'a'.toNat + 10)
    else if 'A' ≤ c ∧ c ≤ 'Z' then some (c.toNat - 'A'.toNat + 10)
    else none
  v.filter fun d => d < radix

/-- The values of the longest prefix of digits of the given radix. -/
def leadingDigits (radix : Nat) : List Char → List Nat
  | [] => []
  | c :: cs =>
    match radixDigit radix c with
    | some d => d :: leadingDigits radix cs
    | none => []

/-- The integer `parseInt(string)` reads, before it is made a Number: leading
white space is skipped, a sign is read, a prefix `0x` or `0X` selects radix 16,
and the longest prefix of digits is the magnitude; `none` when there is no
digit.  The result is the sign (1 or -1) and the magnitude. -/
def parseIntParts (s : String) : Option (Int × Nat) :=
  let cs := s.toList.dropWhile isStrWhiteSpaceChar
  let signed : Int × List Char :=
    match cs with
    | '-' :: rest => (-1, rest)
    | '+' :: rest => (1, rest)
    | _ => (1, cs)
  let based : Nat × List Char :=
    match signed.2 with
    | '0' :: 'x' :: rest => (16, rest)
    | '0' :: 'X' :: rest => (16, rest)
    | _ => (10, signed.2)
  let digits := leadingDigits based.1 based.2
  if digits.isEmpty then none
  else
    let mathInt : Nat := digits.foldl (fun acc d => acc * based.1 + d) 0
    some (signed.1, mathInt)

/-- The Number value of the integer `sign * n`: the integer itself below 2^53;
above, the nearest double (53 significant bits, a tie going to the even
significand); Infinity with the sign once that reaches 2^1024, which is from
`n = 2^1024 - 2^970` on.  All digits count, as in the engines that run the
client (the language lets an engine ignore decimal digits after the 20th). -/
def toDouble (sign : Int) (n : Nat) : JsNum :=
  if n < 2 ^ 53 then JsNum.num ((sign * (n : Int) : Int) : ℚ)
  else if 2 ^ 1024 ≤ n then (if sign < 0 then JsNum.negInfinity else JsNum.infinity)
  else
    let e := Nat.log2 n - 52
    let q := n / 2 ^ e
    let r := n % 2 ^ e
    let q1 := if 2 ^ (e - 1) < r ∨ (r = 2 ^ (e - 1) ∧ q % 2 = 1) then q + 1 else q
    if 2 ^ 1024 ≤ q1 * 2 ^ e then (if sign < 0 then JsNum.negInfinity else JsNum.infinity)
    else JsNum.num ((sign * ((q1 * 2 ^ e : Nat) : Int) : Int) : ℚ)

/-- The function `parseInt(string)` without a radix argument: NaN when the
string has no digit to read, the Number value of the integer read otherwise. -/
def parseInt (s : String) : JsNum :=
  match parseIntParts s with
  | none => JsNum.nan
  | some (sign, mathInt) => toDouble sign mathInt

/-- A string of 400 nines. -/
def exLongDigits : String := String.mk (List.replicate 400 '9')

/-! ## Objects and request bodies -/

/-- An object whose values are numbers, as its entries in key order. -/
abbrev NumObject := List (String × JsNum)

/-- The property read `m[k]`: `none` when the object has no such key. -/
def NumObject.get (m : NumObject) (k : String) : Option JsNum :=
  match m with
  | [] => none
  | (k', v) :: rest => if k' = k then some v else NumObject.get rest k

/-- The assignment `m[k] = v`, also the last step of `{...m, [k]: v}`: an
existing key keeps its place and takes the new value, a new key is appended. -/
def NumObject.set (m : NumObject) (k : String) (v : JsNum) : NumObject :=
  match m with
  | [] => [(k, v)]
  | (k', v') :: rest =>
    if k' = k then (k, v) :: rest else (k', v') :: NumObject.set rest k v

/-- A value of a field of a request body. -/
inductive BodyValue where
  | str (s : String)
  | num (v : JsNum)
  | numObject (m : NumObject)
deriving DecidableEq, Repr

/-- The object a request carries, as its fields in order. -/
abbrev Body := List (String × BodyValue)

/-- The keys of a body. -/
def Body.keys (b : Body) : List String := b.map Prod.fst

/-- The value of a body at a key. -/
def Body.get (b : Body) (k : String) : Option BodyValue :=
  match b with
  | [] => none
  | (k', v) :: rest => if k' = k then some v else Body.get rest k

/-! ## SimulationPanel.jsx -/

/-- The state hook `simulationConfig`. -/
structure SimulationConfig where
  playing_strategy : String
  betting_strategy : String
  num_hands : JsNum
  starting_bankroll : JsNum
  base_bet : JsNum
  num_simulations : JsNum
deriving DecidableEq, Repr

/-- The initial `simulationConfig`. -/
def SimulationConfig.initial : SimulationConfig :=
  { playing_strategy := "basic", betting_strategy := "flat", num_hands := JsNum.num 1000,
    starting_bankroll := JsNum.num 1000, base_bet := JsNum.num 10,
    num_simulations := JsNum.num 5 }

/-- The body of `runSimulation`'s request: the object `simulationConfig` itself. -/
def SimulationPanel.runSimulationBody (simulationConfig : SimulationConfig) : Body :=
  [("playing_strategy", BodyValue.str simulationConfig.playing_strategy),
   ("betting_strategy", BodyValue.str simulationConfig.betting_strategy),
   ("num_hands", BodyValue.num simulationConfig.num_hands),
   ("starting_bankroll", BodyValue.num simulationConfig.starting_bankroll),
   ("base_bet", BodyValue.num simulationConfig.base_bet),
   ("num_simulations", BodyValue.num simulationConfig.num_simulations)]

/-- The body of `compareStrategies`'s request: the object literal it builds. -/
def SimulationPanel.compareStrategiesBody (simulationConfig : SimulationConfig) : Body :=
  [("num_hands", BodyValue.num simulationConfig.num_hands),
   ("num_simulations", BodyValue.num simulationConfig.num_simulations),
   ("starting_bankroll", BodyValue.num simulationConfig.starting_bankroll),
   ("base_bet", BodyValue.num simulationConfig.base_bet)]

/-- The number formatted for "Average ROI":
`simulationResults.summary.avg_roi.toFixed(2)`. -/
def SimulationPanel.summaryRoiNumber (avg_roi : ℚ) : ℚ := avg_roi

/-- The number formatted for an individual run: `sim.roi.toFixed(1)`. -/
def SimulationPanel.runRoiNumber (roi : ℚ) : ℚ := roi

/-- The number formatted in the comparison table: `data.avg_roi.toFixed(2)`. -/
def SimulationPanel.comparisonRoiNumber (avg_roi : ℚ) : ℚ := avg_roi

/-- The text `{simulationResults.summary.avg_roi.toFixed(2)}%`. -/
def SimulationPanel.summaryRoiText (avg_roi : ℚ) : String :=
  toFixed (SimulationPanel.summaryRoiNumber avg_roi) 2 ++ "%"

/-- The text `({sim.roi >= 0 ? '+' : ''}{sim.roi.toFixed(1)}%)`. -/
def SimulationPanel.runRoiText (roi : ℚ) : String :=
  "(" ++ (if roi ≥ 0 then "+" else "") ++ toFixed (SimulationPanel.runRoiNumber roi) 1 ++ "%)"

/-- The text `{data.avg_roi.toFixed(2)}%`. -/
def SimulationPanel.comparisonRoiText (avg_roi : ℚ) : String :=
  toFixed (SimulationPanel.comparisonRoiNumber avg_roi) 2 ++ "%"

/-- The number formatted by `formatPercentage` of StatisticsOverlay.jsx:
`value * 100`. -/
def StatisticsOverlay.percentageNumber (value : ℚ) : ℚ := value * 100

/-- The function `formatPercentage`: `(value * 100).toFixed(1)` and a percent sign. -/
def StatisticsOverlay.formatPercentage (value : ℚ) : String :=
  toFixed (StatisticsOverlay.percentageNumber value) 1 ++ "%"

/-! ## StrategyTester.jsx -/

/-- The data of `POST /api/strategy/simulate`. -/
structure StrategyResults where
  roi : ℚ
  win_rate : ℚ
  final_bankroll : ℚ
  total_hands : Int
  avg_bet : ℚ
  total_wagered : ℚ
  total_won_lost : ℚ
  blackjacks : Int
  bet_distribution : Option (List (String × Int))
deriving DecidableEq, Repr

/-- A configuration kept in local storage. -/
structure SavedConfig where
  name : String
  cardValues : NumObject
  aceAdjustment : JsNum
  betThreshold : JsNum
  betIncrement : JsNum
  maxBetUnits : JsNum
  timestamp : String
deriving DecidableEq, Repr

/-- The state hooks of `StrategyTester`. -/
structure StrategyState where
  cardValues : NumObject
  aceAdjustment : JsNum
  betThreshold : JsNum
  betIncrement : JsNum
  maxBetUnits : JsNum
  numHands : JsNum
  startingBankroll : JsNum
  minBet : JsNum
  numDecks : JsNum
  penetration : JsNum
  isSimulating : Bool
  results : Option StrategyResults
  savedConfigs : List SavedConfig
  configName : String
deriving DecidableEq, Repr

/-- The initial values of the hooks. -/
def StrategyState.initial : StrategyState :=
  { cardValues := [], aceAdjustment := JsNum.num 4, betThreshold := JsNum.num 5,
    betIncrement := JsNum.num 5, maxBetUnits := JsNum.num 20, numHands := JsNum.num 10000,
    startingBankroll := JsNum.num 10000, minBet := JsNum.num 10, numDecks := JsNum.num 6,
    penetration := JsNum.num 72, isSimulating := false, results := none, savedConfigs := [],
    configName := "" }

/-- The handler `handleCardValueChange(card, value)`:
`setCardValues(prev => ({...prev, [card]: parseInt(value) || 0}))`. -/
def StrategyTester.handleCardValueChange (st : StrategyState) (card value : String) :
    StrategyState :=
  { st with
    cardValues := NumObject.set st.cardValues card ((parseInt value).orElse (JsNum.num 0)) }

/-- The `onChange` of the Penetration input:
`setPenetration(parseInt(e.target.value) || 72)`. -/
def StrategyTester.onPenetrationChange (st : StrategyState) (value : String) : StrategyState :=
  { st with penetration := (parseInt value).orElse (JsNum.num 72) }

/-- The object `apiCardValues` of `runSimulation`: for each entry of
`cardValues` in order, `apiCardValues[card.toUpperCase()] = value`; `upper`
stands for `String.prototype.toUpperCase`. -/
def StrategyTester.apiCardValues (upper : String → String) (cardValues : NumObject) :
    NumObject :=
  cardValues.foldl (fun acc entry => NumObject.set acc (upper entry.1) entry.2) []

/-- The body of the request of `runSimulation` in StrategyTester.jsx. -/
def StrategyTester.runSimulationBody (upper : String → String) (st : StrategyState) : Body :=
  [("card_values", BodyValue.numObject (StrategyTester.apiCardValues upper st.cardValues)),
   ("ace_adjustment", BodyValue.num st.aceAdjustment),
   ("bet_threshold", BodyValue.num st.betThreshold),
   ("bet_increment", BodyValue.num st.betIncrement),
   ("max_bet_units", BodyValue.num st.maxBetUnits),
   ("num_hands", BodyValue.num st.numHands),
   ("starting_bankroll", BodyValue.num st.startingBankroll),
   ("min_bet", BodyValue.num st.minBet),
   ("num_decks", BodyValue.num st.numDecks),
   ("penetration", BodyValue.num st.penetration)]

/-- The number formatted for "ROI": `(results.roi * 100).toFixed(2)`. -/
def StrategyTester.roiNumber (roi : ℚ) : ℚ := roi * 100

/-- The text `{(results.roi * 100).toFixed(2)}%`. -/
def StrategyTester.roiText (roi : ℚ) : String :=
  toFixed (StrategyTester.roiNumber roi) 2 ++ "%"

/-- The value is a fraction in the interval [0, 1]. -/
def JsNum.InUnitInterval (v : JsNum) : Prop := ∃ q : ℚ, v = JsNum.num q ∧ 0 ≤ q ∧ q ≤ 1

/-- The Hi-Lo weights of the low cards and the ten, as a card-value map. -/
def exCardValues : NumObject :=
  [("2", JsNum.num 1), ("3", JsNum.num 1), ("10", JsNum.num (-1)), ("A", JsNum.num (-1))]

/-- The initial state of the form with `exCardValues` loaded. -/
def exCardState : StrategyState := { StrategyState.initial with cardValues := exCardValues }

/-! ## Hand evaluation of the round engine -/

/-- Modelled from the spec: the rank of a card of the engine, "rank (2–10, J, Q,
K, A)"; the engine is not among the client's sources. -/
inductive Rank where
  | two | three | four | five | six | seven | eight | nine | ten
  | jack | queen | king | ace
deriving DecidableEq, Repr

/-- Modelled from the spec: the value of a rank with the Ace counted as 11,
"face cards = 10". -/
def Rank.highValue : Rank → Nat
  | Rank.two => 2 | Rank.three => 3 | Rank.four => 4 | Rank.five => 5 | Rank.six => 6
  | Rank.seven => 7 | Rank.eight => 8 | Rank.nine => 9 | Rank.ten => 10
  | Rank.jack => 10 | Rank.queen => 10 | Rank.king => 10 | Rank.ace => 11

/-- Modelled from the spec: the value of a rank with the Ace counted as 1. -/
def Rank.lowValue : Rank → Nat
  | Rank.ace => 1
  | r => r.highValue

/-- Modelled from the spec: the total of a hand with every Ace counted as 1. -/
def hardTotal (cards : List Rank) : Nat := (cards.map Rank.lowValue).sum

/-- Modelled from the spec: the demotion loop of the engine's hand evaluation,
which is not among the client's sources.  "demoting Aces to 1 one at a time
while total > 21": `total` is the running total and `aces` the number of Aces
still counted as 11; the result is the final total and the Aces left at 11. -/
def demoteAces : Nat → Nat → Nat × Nat
  | total, 0 => (total, 0)
  | total, aces + 1 => if total > 21 then demoteAces (total - 10) aces else (total, aces + 1)

/-- Modelled from the spec: the engine's hand evaluation (not among the
client's sources).  "Value computed by summing ranks, counting each Ace as 11
then demoting Aces to 1 one at a time while total > 21": the value and the
number of Aces still counted as 11. -/
def evaluateHand (cards : List Rank) : Nat × Nat :=
  demoteAces (cards.map Rank.highValue).sum (cards.count Rank.ace)

/-- Modelled from the spec: the derived flag `value` of a Hand. -/
def handValue (cards : List Rank) : Nat := (evaluateHand cards).1

/-- Modelled from the spec: the derived flag `is_soft` of a Hand, "soft = at
least one Ace still counted as 11". -/
def handIsSoft (cards : List Rank) : Bool := decide (1 ≤ (evaluateHand cards).2)

/-! ## StrategyTester.jsx: loading a configuration -/

/-- The data of `GET /api/strategy/default-config` and of
`GET /api/strategy/optimized-config`. -/
structure StrategyConfigData where
  card_values : NumObject
  ace_adjustment : JsNum
  bet_threshold : JsNum
  bet_increment : JsNum
  max_bet_units : JsNum
deriving DecidableEq, Repr

/-- A request `StrategyTester` sends. -/
inductive StrategyRequest where
  | defaultConfig
  | optimizedConfig
  | simulate (body : Body)
deriving DecidableEq, Repr

/-- The handler `loadDefaultConfig`: the state after the call and the
requests made. -/
def StrategyTester.loadDefaultConfig (st : StrategyState) (reply : Reply StrategyConfigData) :
    StrategyState × List StrategyRequest :=
  match reply with
  | Reply.ok config =>
    ({ st with
       cardValues := config.card_values
       aceAdjustment := config.ace_adjustment
       betThreshold := config.bet_threshold
       betIncrement := config.bet_increment
       maxBetUnits := config.max_bet_units }, [StrategyRequest.defaultConfig])
  | Reply.failed => (st, [StrategyRequest.defaultConfig])

/-- The handler `loadOptimizedConfig`. -/
def StrategyTester.loadOptimizedConfig (st : StrategyState) (reply : Reply StrategyConfigData) :
    StrategyState × List StrategyRequest :=
  match reply with
  | Reply.ok config =>
    ({ st with
       cardValues := config.card_values
       aceAdjustment := config.ace_adjustment
       betThreshold := config.bet_threshold
       betIncrement := config.bet_increment
       maxBetUnits := config.max_bet_units }, [StrategyRequest.optimizedConfig])
  | Reply.failed => (st, [StrategyRequest.optimizedConfig])

/-- The labels of the thirteen inputs of the "Card Counting Values" grid. -/
def StrategyTester.rankLabels : List String :=
  ["2", "3", "4", "5", "6", "7", "8", "9", "10", "J", "Q", "K", "A"]

/-- The keys of an object, in order. -/
def NumObject.keys (m : NumObject) : List String := m.map Prod.fst

/-- Upper-casing of the letters `a`–`z`, every other character kept: what
`String.prototype.toUpperCase` does on a string of ASCII characters. -/
def upperAscii (s : String) : String := String.mk (s.toList.map Char.toUpper)

/-- A configuration the service returns: the Hi-Lo weights with a bet ramp. -/
def exConfigData : StrategyConfigData :=
  { card_values := exCardValues, ace_adjustment := JsNum.num 4, bet_threshold := JsNum.num 2,
    bet_increment := JsNum.num 1, max_bet_units := JsNum.num 8 }

/-! ## SimulationPanel.jsx: state and handlers -/

/-- The `summary` object of a simulation response. -/
structure SimulationSummary where
  avg_roi : ℚ
  avg_final_bankroll : ℚ
  bust_rate : ℚ
  num_simulations : Int
deriving DecidableEq, Repr

/-- One element of `simulations` of a simulation response. -/
structure SimulationRun where
  starting_bankroll : ℚ
  ending_bankroll : ℚ
  roi : ℚ
  bust_out : Bool
deriving DecidableEq, Repr

/-- The data of `POST /simulation/run`. -/
structure SimulationResults where
  summary : SimulationSummary
  simulations : List SimulationRun
deriving DecidableEq, Repr

/-- One value of the object `POST /simulation/compare-strategies` returns. -/
structure ComparisonRow where
  playing_strategy : String
  betting_strategy : String
  avg_roi : ℚ
  std_roi : ℚ
  avg_final_bankroll : ℚ
  bust_rate : ℚ
deriving DecidableEq, Repr

/-- The data of `GET /strategies`. -/
structure StrategyLists where
  playing_strategies : List String
  betting_strategies : List String
deriving DecidableEq, Repr

/-- The state hooks of `SimulationPanel`. -/
structure SimulationPanelState where
  strategies : StrategyLists
  simulationConfig : SimulationConfig
  simulationResults : Option SimulationResults
  comparisonResults : Option (List (String × ComparisonRow))
  loading : Bool
deriving DecidableEq, Repr

/-- The initial values of the hooks. -/
def SimulationPanelState.initial : SimulationPanelState :=
  { strategies := { playing_strategies := [], betting_strategies := [] }
    simulationConfig := SimulationConfig.initial
    simulationResults := none
    comparisonResults := none
    loading := false }

/-- A request `SimulationPanel` sends from its two handlers. -/
inductive SimulationRequest where
  | run (body : Body)
  | compare (body : Body)
deriving DecidableEq, Repr

/-- The handler `runSimulation` of SimulationPanel.jsx. -/
def SimulationPanel.runSimulation (st : SimulationPanelState) (reply : Reply SimulationResults) :
    SimulationPanelState × List SimulationRequest :=
  let st1 := { st with loading := true }
  let st2 :=
    match reply with
    | Reply.ok data => { st1 with simulationResults := some data, comparisonResults := none }
    | Reply.failed => st1
  ({ st2 with loading := false },
    [SimulationRequest.run (SimulationPanel.runSimulationBody st.simulationConfig)])

/-- The handler `compareStrategies`. -/
def SimulationPanel.compareStrategies (st : SimulationPanelState)
    (reply : Reply (List (String × ComparisonRow))) :
    SimulationPanelState × List SimulationRequest :=
  let st1 := { st with loading := true }
  let st2 :=
    match reply with
    | Reply.ok data => { st1 with comparisonResults := some data, simulationResults := none }
    | Reply.failed => st1
  ({ st2 with loading := false },
    [SimulationRequest.compare (SimulationPanel.compareStrategiesBody st.simulationConfig)])

/-- A call of one of the two handlers, with the way its request settles. -/
inductive SimulationCall where
  | runSimulation (reply : Reply SimulationResults)
  | compareStrategies (reply : Reply (List (String × ComparisonRow)))
deriving DecidableEq, Repr

/-- The state after one call has completed. -/
def SimulationPanel.afterCall (st : SimulationPanelState) (call : SimulationCall) :
    SimulationPanelState :=
  match call with
  | SimulationCall.runSimulation reply => (SimulationPanel.runSimulation st reply).1
  | SimulationCall.compareStrategies reply => (SimulationPanel.compareStrategies st reply).1

/-- The state reached from the initial one by the calls, in order. -/
def SimulationPanel.afterCalls (calls : List SimulationCall) : SimulationPanelState :=
  calls.foldl SimulationPanel.afterCall SimulationPanelState.initial

/-! ## Examples for the round life cycle -/

/-- The state of a fresh round: betting, no cards. -/
def exBetting : GameState :=
  { state := "betting"
    dealer_hand := { cards := [], value := 0, is_soft := false, is_blackjack := false,
                     is_bust := false, bet := 0 }
    player_hands := []
    current_hand_index := 0
    valid_actions := []
    player_bankroll := 1000
    deck_info := { remaining_cards := 312, true_count := 0 } }

/-- The data of a successful new-round request. -/
def exNewRoundData : NewRoundData := { game_state := exBetting }

/-- The data of a successful new-game request. -/
def exNewGameData : NewGameData := { session_id := "s-1", game_state := exBetting }

/-- A round settled by the bet itself: the player is dealt A♠ K♦, the dealer
9♣ 7♥, and the service answers the bet with state `round_over`. -/
def exNaturalRoundOver : GameState :=
  { state := "round_over"
    dealer_hand := { cards := [⟨"9", "♣"⟩, ⟨"7", "♥"⟩], value := 16, is_soft := false,
                     is_blackjack := false, is_bust := false, bet := 0 }
    player_hands := [{ cards := [⟨"A", "♠"⟩, ⟨"K", "♦"⟩], value := 21, is_soft := true,
                       is_blackjack := true, is_bust := false, bet := 25 }]
    current_hand_index := 0
    valid_actions := []
    player_bankroll := 1037
    deck_info := { remaining_cards := 308, true_count := 0 } }

/-- The dealer's hand of `exPlayerTurn` with another card at index 0 and the
flags of that other hand. -/
def exOtherDealerHand : HandData :=
  { cards := [⟨"A", "♣"⟩, ⟨"7", "♥"⟩], value := 18, is_soft := true, is_blackjack := false,
    is_bust := false, bet := 0 }

/-- The state `exPlayerTurn` with `exOtherDealerHand` as the dealer's hand. -/
def exPlayerTurnOther : GameState := { exPlayerTurn with dealer_hand := exOtherDealerHand }

/-! ## StatisticsOverlay.jsx: the dealer's likely outcomes -/

/-- The difference `a - b` of two JavaScript numbers: NaN when one is NaN or
when both are the same infinity. -/
def JsNum.sub (a b : JsNum) : JsNum :=
  match a, b with
  | JsNum.num x, JsNum.num y => JsNum.num (x - y)
  | JsNum.num _, JsNum.infinity => JsNum.negInfinity
  | JsNum.num _, JsNum.negInfinity => JsNum.infinity
  | JsNum.infinity, JsNum.num _ => JsNum.infinity
  | JsNum.infinity, JsNum.negInfinity => JsNum.infinity
  | JsNum.negInfinity, JsNum.num _ => JsNum.negInfinity
  | JsNum.negInfinity, JsNum.infinity => JsNum.negInfinity
  | _, _ => JsNum.nan

/-- The test `v > 0` a sort makes on the result of its compare function;
false for NaN. -/
def JsNum.isPositive (v : JsNum) : Bool :=
  match v with
  | JsNum.num q => decide (0 < q)
  | JsNum.infinity => true
  | JsNum.negInfinity => false
  | JsNum.nan => false

/-- The method `Array.prototype.sort(cmp)`: a stable sort in which an element
`a` that precedes `b` stays before it unless `cmp(a, b) > 0`; for a compare
function that orders the elements consistently every sort gives this result. -/
def sortWith {α : Type} (cmp : α → α → JsNum) (l : List α) : List α :=
  l.insertionSort fun a b => (cmp a b).isPositive = false

/-- The compare function of the dealer outcomes, on the keys `a` and `b`:
`if (a === 'bust') return 1; if (b === 'bust') return -1;
return parseInt(a) - parseInt(b)`. -/
def StatisticsOverlay.compareOutcomes (a b : String) : JsNum :=
  if a = "bust" then JsNum.num 1
  else if b = "bust" then JsNum.num (-1)
  else (parseInt a).sub (parseInt b)

/-- The entries shown under "Dealer likely outcomes", in order:
`Object.entries(final_value_probabilities).filter(([key, val]) => val > 0.05)
.sort(([a], [b]) => ...)`. -/
def StatisticsOverlay.dealerOutcomes (final_value_probabilities : List (String × ℚ)) :
    List (String × ℚ) :=
  sortWith (fun a b => StatisticsOverlay.compareOutcomes a.1 b.1)
    (final_value_probabilities.filter fun entry => decide (entry.2 > 0.05))

/-- One cell of the outcomes grid: the key, whether it is shown in red, and the
percentage text. -/
structure OutcomeCell where
  key : String
  red : Bool
  text : String
deriving DecidableEq, Repr

/-- The cells of the outcomes grid: the `.map(([value, prob]) => ...)` of the
sorted entries. -/
def StatisticsOverlay.dealerOutcomeCells (final_value_probabilities : List (String × ℚ)) :
    List OutcomeCell :=
  (StatisticsOverlay.dealerOutcomes final_value_probabilities).map fun entry =>
    { key := entry.1
      red := entry.1 == "bust"
      text := StatisticsOverlay.formatPercentage entry.2 }

/-- The keys of a dealer final-value distribution in ascending numeric order,
`bust` last. -/
def StatisticsOverlay.outcomeOrder : List String := ["17", "18", "19", "20", "21", "bust"]

/-- The place of a key in `outcomeOrder`. -/
def StatisticsOverlay.outcomeRank (k : String) : Nat :=
  StatisticsOverlay.outcomeOrder.indexOf k

/-- The key `a` comes before the key `b` in ascending numeric order with `bust`
last: `a` is not `bust`, and `b` is `bust` or `parseInt(a) < parseInt(b)`. -/
def StatisticsOverlay.outcomeBefore (a b : String) : Prop :=
  a ≠ "bust" ∧
    (b = "bust" ∨ ∃ x y : ℚ, parseInt a = JsNum.num x ∧ parseInt b = JsNum.num y ∧ x < y)

/-- A dealer distribution against a ten, keys in the order of the payload. -/
def exFinalValues : List (String × ℚ) :=
  [("bust", 21 / 100), ("21", 4 / 100), ("17", 12 / 100), ("20", 37 / 100), ("19", 13 / 100),
   ("18", 13 / 100)]

/-- The order of two entries by the place of their keys in `outcomeOrder`. -/
def StatisticsOverlay.outcomeLe (a b : String × ℚ) : Prop :=
  StatisticsOverlay.outcomeRank a.1 ≤ StatisticsOverlay.outcomeRank b.1

instance StatisticsOverlay.outcomeLe_decidable : DecidableRel StatisticsOverlay.outcomeLe :=
  fun _ _ => Nat.decLe _ _

/-- The keys of the order whose entry in the distribution has a probability
above 0.05, in the order's order. -/
def StatisticsOverlay.likelyKeys (final_value_probabilities : List (String × ℚ)) :
    List String :=
  StatisticsOverlay.outcomeOrder.filter fun k =>
    final_value_probabilities.any fun entry => entry.1 == k && decide (entry.2 > 0.05)

/-! ## The round engine: bets, player actions, dealer turn and settlement -/

/-- Modelled from the spec: the lifecycle state of a Round, "States: `Betting →
PlayerTurn → DealerTurn → RoundOver`"; the round engine is not among the
client's sources. -/
inductive RoundState where
  | betting
  | playerTurn
  | dealerTurn
  | roundOver
deriving DecidableEq, Repr

/-- Modelled from the spec: the errors of the engine's taxonomy that a round
can raise. -/
inductive EngineError where
  | invalidBet
  | invalidAction
  | shoeExhausted
deriving DecidableEq, Repr

/-- Modelled from the spec: the rules of the table.  The spec gives the
blackjack win as "1.5× stake" and the surrender forfeit as "half the wager" of a
bankroll in "signed integer currency units" without saying how they are rounded,
so the two amounts are functions of the wager. -/
structure TableRules where
  minimum : Int
  hit_soft_17 : Bool
  blackjackWin : Int → Int
  surrenderForfeit : Int → Int

/-- Modelled from the spec: a player Hand, "ordered sequence of Cards, a wager
amount" and the flags the actions set. -/
structure EngineHand where
  cards : List Rank
  wager : Int
  is_doubled : Bool
  is_surrendered : Bool
  is_split_aces : Bool
deriving DecidableEq, Repr

/-- Modelled from the spec: the flag `is_bust`, a value above 21. -/
def isBust (cards : List Rank) : Bool := decide (21 < handValue cards)

/-- Modelled from the spec: the flag `is_blackjack`, "a two-card hand totaling
21". -/
def isBlackjack (cards : List Rank) : Bool :=
  decide (cards.length = 2) && decide (handValue cards = 21)

/-- Modelled from the spec: the ways a player Hand is settled. -/
inductive Settlement where
  | surrendered
  | lose
  | push
  | win
  | blackjack
deriving DecidableEq, Repr

/-- Modelled from the spec: the settlement of a player Hand against the
dealer's cards.  "surrender ... forfeits half the wager, Hand marked settled
immediately"; then "player bust → lose stake; player blackjack vs dealer
non-blackjack → win 1.5× stake; dealer bust (with player not bust) → win 1×
stake; higher value wins 1× stake; equal value → push (stake returned); lower
value loses stake". -/
def settlementOf (dealer : List Rank) (hand : EngineHand) : Settlement :=
  if hand.is_surrendered then Settlement.surrendered
  else if isBust hand.cards then Settlement.lose
  else if isBlackjack hand.cards && !isBlackjack dealer then Settlement.blackjack
  else if isBust dealer then Settlement.win
  else if handValue dealer < handValue hand.cards then Settlement.win
  else if handValue hand.cards = handValue dealer then Settlement.push
  else Settlement.lose

/-- Modelled from the spec: the "net bankroll delta recorded per Hand": the
stake lost, nothing on a push, the stake won, the blackjack win, the surrender
forfeit lost. -/
def Settlement.net (rules : TableRules) (s : Settlement) (wager : Int) : Int :=
  match s with
  | Settlement.surrendered => -(rules.surrenderForfeit wager)
  | Settlement.lose => -wager
  | Settlement.push => 0
  | Settlement.win => wager
  | Settlement.blackjack => rules.blackjackWin wager

/-- Modelled from the spec: what the settlement pays back to the bankroll for
a Hand whose wager was taken when it was placed: nothing for a lost stake, the
"stake returned" on a push, the stake and as much again on a win, the stake and
the blackjack win, the part of the stake that a surrender does not forfeit. -/
def Settlement.payout (rules : TableRules) (s : Settlement) (wager : Int) : Int :=
  match s with
  | Settlement.surrendered => wager - rules.surrenderForfeit wager
  | Settlement.lose => 0
  | Settlement.push => wager
  | Settlement.win => wager + wager
  | Settlement.blackjack => wager + rules.blackjackWin wager

/-- Modelled from the spec: a Session with its current Round: the bankroll in
"signed integer currency units", the lifecycle state, the dealer's cards, the
player Hands in order, `current_hand_index`, and the results recorded at
settlement.  "Bankroll mutated only at settlement and at bet placement": a
wager leaves the bankroll when it is placed (the bet, and the matching wager a
double or a split requires), and the settlement pays back. -/
structure Engine where
  bankroll : Int
  state : RoundState
  dealer : List Rank
  hands : List EngineHand
  current_hand_index : Nat
  results : List (Settlement × Int)
deriving DecidableEq, Repr

/-- Modelled from the spec: "advance to next Hand or to `DealerTurn` if
last". -/
def Engine.advance (e : Engine) : Engine :=
  if e.current_hand_index + 1 < e.hands.length then
    { e with current_hand_index := e.current_hand_index + 1 }
  else { e with state := RoundState.dealerTurn }

/-- Modelled from the spec: bet placement, "accepts a wager ≥ table minimum and
≤ bankroll; fails with `InvalidBet` otherwise. Deals two cards to a single
player Hand and two to the dealer"; the wager leaves the bankroll; "If the
player Hand is a natural blackjack and dealer's up-card is not an Ace, round
transitions directly to `DealerTurn`".  The four cards are those the shoe
deals. -/
def Engine.placeBet (rules : TableRules) (e : Engine) (amount : Int) (p1 d1 p2 d2 : Rank) :
    Except EngineError Engine :=
  if e.state ≠ RoundState.betting then Except.error EngineError.invalidAction
  else if amount < rules.minimum ∨ e.bankroll < amount then
    Except.error EngineError.invalidBet
  else
    let hand : EngineHand :=
      { cards := [p1, p2], wager := amount, is_doubled := false, is_surrendered := false,
        is_split_aces := false }
    let e1 : Engine :=
      { e with
        bankroll := e.bankroll - amount, dealer := [d1, d2], hands := [hand],
        current_hand_index := 0, results := [] }
    if isBlackjack [p1, p2] = true ∧ d1 ≠ Rank.ace then
      Except.ok { e1 with state := RoundState.dealerTurn }
    else Except.ok { e1 with state := RoundState.playerTurn }

/-- Modelled from the spec: `hit`, "draw one card, re-evaluate bust"; a bust
Hand gives the turn to the next; "Any action on a busted or already-settled
Hand fails with `InvalidAction`", and after splitting Aces "no further hitting
allowed". -/
def Engine.hit (e : Engine) (card : Rank) : Except EngineError Engine :=
  if e.state ≠ RoundState.playerTurn then Except.error EngineError.invalidAction
  else
    match e.hands[e.current_hand_index]? with
    | none => Except.error EngineError.invalidAction
    | some h =>
      if h.is_split_aces = true ∨ isBust h.cards = true then
        Except.error EngineError.invalidAction
      else
        let h1 : EngineHand := { h with cards := h.cards ++ [card] }
        let e1 : Engine := { e with hands := e.hands.set e.current_hand_index h1 }
        if isBust h1.cards = true then Except.ok e1.advance else Except.ok e1

/-- Modelled from the spec: `stand`, "advance to next Hand or to `DealerTurn`
if last". -/
def Engine.stand (e : Engine) : Except EngineError Engine :=
  if e.state ≠ RoundState.playerTurn then Except.error EngineError.invalidAction
  else
    match e.hands[e.current_hand_index]? with
    | none => Except.error EngineError.invalidAction
    | some _ => Except.ok e.advance

/-- Modelled from the spec: `double`, "requires exactly two cards and
sufficient bankroll to match wager; wager doubles, exactly one card is drawn,
then auto-stands"; the matching wager leaves the bankroll.  A Hand of split
Aces keeps its "exactly one card". -/
def Engine.double (e : Engine) (card : Rank) : Except EngineError Engine :=
  if e.state ≠ RoundState.playerTurn then Except.error EngineError.invalidAction
  else
    match e.hands[e.current_hand_index]? with
    | none => Except.error EngineError.invalidAction
    | some h =>
      if h.cards.length ≠ 2 ∨ e.bankroll < h.wager ∨ h.is_split_aces = true then
        Except.error EngineError.invalidAction
      else
        let h1 : EngineHand :=
          { h with cards := h.cards ++ [card], wager := h.wager + h.wager, is_doubled := true }
        let e1 : Engine :=
          { e with
            bankroll := e.bankroll - h.wager
            hands := e.hands.set e.current_hand_index h1 }
        Except.ok e1.advance

/-- Modelled from the spec: `split`, "requires exactly two cards of equal rank
value and sufficient bankroll to match wager; creates a new Hand, each receiving
one additional card; Aces split produce exactly one card per resulting Hand with
no further hitting allowed — `is_split_aces` flag enforces this"; the matching
wager leaves the bankroll and the new Hand follows the split one. -/
def Engine.split (e : Engine) (c1 c2 : Rank) : Except EngineError Engine :=
  if e.state ≠ RoundState.playerTurn then Except.error EngineError.invalidAction
  else
    match e.hands[e.current_hand_index]? with
    | none => Except.error EngineError.invalidAction
    | some h =>
      match h.cards with
      | [a, b] =>
        if a.highValue ≠ b.highValue ∨ e.bankroll < h.wager then
          Except.error EngineError.invalidAction
        else
          let h1 : EngineHand := { h with cards := [a, c1], is_split_aces := decide (a = Rank.ace) }
          let h2 : EngineHand := { h with cards := [b, c2], is_split_aces := decide (a = Rank.ace) }
          Except.ok
            { e with
              bankroll := e.bankroll - h.wager
              hands := e.hands.take e.current_hand_index ++ [h1, h2] ++
                e.hands.drop (e.current_hand_index + 1) }
      | _ => Except.error EngineError.invalidAction

/-- Modelled from the spec: `surrender`, "only as the first decision on a
two-card Hand; forfeits half the wager, Hand marked settled immediately". -/
def Engine.surrender (e : Engine) : Except EngineError Engine :=
  if e.state ≠ RoundState.playerTurn then Except.error EngineError.invalidAction
  else
    match e.hands[e.current_hand_index]? with
    | none => Except.error EngineError.invalidAction
    | some h =>
      if h.cards.length ≠ 2 ∨ e.hands.length ≠ 1 then Except.error EngineError.invalidAction
      else
        let h1 : EngineHand := { h with is_surrendered := true }
        let e1 : Engine := { e with hands := e.hands.set e.current_hand_index h1 }
        Except.ok e1.advance

/-- Modelled from the spec: the dealer "hits while total < 17, or while total
== 17 and soft" under the soft-17 rule. -/
def dealerMustHit (rules : TableRules) (cards : List Rank) : Bool :=
  decide (handValue cards < 17) ||
    (decide (handValue cards = 17) && handIsSoft cards && rules.hit_soft_17)

/-- Modelled from the spec: the dealer's draw from the cards the shoe deals
next, "stopping on hard 17+ or bust"; `ShoeExhausted` when the shoe ends while
the dealer must hit. -/
def dealerDraw (rules : TableRules) : List Rank → List Rank → Except EngineError (List Rank)
  | cards, [] =>
    if dealerMustHit rules cards = true then Except.error EngineError.shoeExhausted
    else Except.ok cards
  | cards, c :: rest =>
    if dealerMustHit rules cards = true then dealerDraw rules (cards ++ [c]) rest
    else Except.ok cards

/-- Modelled from the spec: settlement against the dealer's final cards: the
payout of every Hand enters the bankroll, the settlement and the net of every
Hand are recorded, and the Round is over. -/
def Engine.settle (rules : TableRules) (e : Engine) (dealer : List Rank) : Engine :=
  { e with
    dealer := dealer
    state := RoundState.roundOver
    bankroll :=
      e.hands.foldl (fun b h => b + (settlementOf dealer h).payout rules h.wager) e.bankroll
    results :=
      e.hands.map fun h => (settlementOf dealer h, (settlementOf dealer h).net rules h.wager) }

/-- Modelled from the spec: the dealer's turn and the settlement that follows
it.  "If every player Hand is bust or surrendered, dealer does not draw further
cards"; nor does the dealer draw against a natural ("dealer does not draw
further; a blackjack always stands"). -/
def Engine.dealerTurn (rules : TableRules) (e : Engine) (shoe : List Rank) :
    Except EngineError Engine :=
  if e.state ≠ RoundState.dealerTurn then Except.error EngineError.invalidAction
  else if e.hands.all (fun h => h.is_surrendered || isBust h.cards || isBlackjack h.cards) then
    Except.ok (e.settle rules e.dealer)
  else
    match dealerDraw rules e.dealer shoe with
    | Except.error err => Except.error err
    | Except.ok dealer => Except.ok (e.settle rules dealer)

/-- Modelled from the spec: a request to the engine during one round, with
the cards the shoe deals for it. -/
inductive EngineStep where
  | bet (amount : Int) (p1 d1 p2 d2 : Rank)
  | hit (card : Rank)
  | stand
  | double (card : Rank)
  | split (c1 c2 : Rank)
  | surrender
  | dealer (shoe : List Rank)
deriving DecidableEq, Repr

/-- Modelled from the spec: the engine's answer to one request. -/
def Engine.step (rules : TableRules) (e : Engine) (s : EngineStep) : Except EngineError Engine :=
  match s with
  | EngineStep.bet amount p1 d1 p2 d2 => e.placeBet rules amount p1 d1 p2 d2
  | EngineStep.hit card => e.hit card
  | EngineStep.stand => e.stand
  | EngineStep.double card => e.double card
  | EngineStep.split c1 c2 => e.split c1 c2
  | EngineStep.surrender => e.surrender
  | EngineStep.dealer shoe => e.dealerTurn rules shoe

/-- Modelled from the spec: the state after a request, "callers receive a
structured error and unchanged state". -/
def Engine.apply (rules : TableRules) (e : Engine) (s : EngineStep) : Engine :=
  match e.step rules s with
  | Except.ok e1 => e1
  | Except.error _ => e

/-- Modelled from the spec: the state after a sequence of requests. -/
def Engine.run (rules : TableRules) (e : Engine) (steps : List EngineStep) : Engine :=
  steps.foldl (Engine.apply rules) e

/-- Modelled from the spec: the stake of the round, the wagers of its Hands. -/
def Engine.stake (e : Engine) : Int := (e.hands.map fun h => h.wager).sum

/-- Modelled from the spec: the payout of the round, what the settlement of
its Hands against the dealer's cards pays back. -/
def Engine.payout (rules : TableRules) (e : Engine) : Int :=
  (e.hands.map fun h => (settlementOf e.dealer h).payout rules h.wager).sum

/-- Modelled from the spec: the per-hand nets of the round's results. -/
def Engine.nets (e : Engine) : List Int := e.results.map Prod.snd

/-- The accounting invariant of a round that started with the bankroll `b0`:
before the bet the bankroll is `b0`; while the round is played the bankroll and
the wagers on the table make up `b0`; once it is over the bankroll is `b0` less
the stake plus the payout, and the recorded nets are the nets of the Hands. -/
def Engine.Conserves (rules : TableRules) (b0 : Int) (e : Engine) : Prop :=
  match e.state with
  | RoundState.betting => e.bankroll = b0
  | RoundState.playerTurn => e.bankroll + e.stake = b0
  | RoundState.dealerTurn => e.bankroll + e.stake = b0
  | RoundState.roundOver =>
    e.bankroll = b0 - e.stake + e.payout rules ∧
      e.results =
        e.hands.map fun h => (settlementOf e.dealer h, (settlementOf e.dealer h).net rules h.wager)

/-- Table rules with a 5 minimum, the dealer standing on soft 17, and the two
fractional amounts rounded down. -/
def exRules : TableRules :=
  { minimum := 5, hit_soft_17 := false, blackjackWin := fun w => 3 * w / 2,
    surrenderForfeit := fun w => w / 2 }

/-- A session with 1000 in the bankroll, waiting for a bet. -/
def exEngine : Engine :=
  { bankroll := 1000, state := RoundState.betting, dealer := [], hands := [],
    current_hand_index := 0, results := [] }

/-- A round: a bet of 25 on 8 8 against a 6; the eights are split; the first
Hand draws 3 and doubles with a 10; the second draws a king, hits a king in
vain and busts; the dealer turns a 10 and draws a 9. -/
def exSteps : List EngineStep :=
  [EngineStep.bet 25 Rank.eight Rank.six Rank.eight Rank.ten,
   EngineStep.split Rank.three Rank.king,
   EngineStep.double Rank.ten,
   EngineStep.hit Rank.king,
   EngineStep.dealer [Rank.nine, Rank.two]]

/-- A round settled on a natural: a bet of 25 is dealt an Ace and a king
against a 9. -/
def exNaturalSteps : List EngineStep :=
  [EngineStep.bet 25 Rank.ace Rank.nine Rank.king Rank.seven,
   EngineStep.dealer [Rank.five]]

/-! ## Theorems -/

theorem hideFirstCard_of_player_turn (gameState : GameState)
    (h : gameState.state = "player_turn") : App.hideFirstCard gameState = true := by
  simp [App.hideFirstCard, isRoundOver, isDealerTurn, h]

/-- C1, as stated, fails: in `exPlayerTurn` (state `player_turn`, two dealer
cards) it is not the case that index 0 gets `hidden=false` and index 1 gets
`hidden=true`. -/
theorem C1_counterexample :
    ¬ (exPlayerTurn.state = "player_turn" →
        exPlayerTurn.dealer_hand.cards.length = 2 →
        App.dealerHidden exPlayerTurn = [false, true]) := by
  decide

/-- C1, amended: in every `player_turn` state whose dealer hand has two cards,
the card at index 0 receives `hidden=true` and the card at index 1 receives
`hidden=false`; the dealer's hand renders as a back followed by the face of the
second card. -/
theorem C1_dealer_first_card_concealed (gameState : GameState)
    (hstate : gameState.state = "player_turn")
    (hlen : gameState.dealer_hand.cards.length = 2) :
    App.dealerHidden gameState = [true, false] ∧
    ∃ c0 c1, gameState.dealer_hand.cards = [c0, c1] ∧
      (App.dealerHand gameState).cards = [CardView.back, Card c1 false] := by
  have hhide := hideFirstCard_of_player_turn gameState hstate
  match hc : gameState.dealer_hand.cards, hlen with
  | [c0, c1], _ =>
    refine ⟨?_, c0, c1, rfl, ?_⟩
    · simp [App.dealerHidden, Hand.cardProps, hhide, hc, List.enum, List.enumFrom]
    · simp [App.dealerHand, Hand, Hand.cardProps, hhide, hc, List.enum, List.enumFrom, Card]

theorem C1_dealer_first_card_concealed_witness :
    App.dealerHidden exPlayerTurn = [true, false] ∧
    ∃ c0 c1, exPlayerTurn.dealer_hand.cards = [c0, c1] ∧
      (App.dealerHand exPlayerTurn).cards = [CardView.back, Card c1 false] :=
  C1_dealer_first_card_concealed exPlayerTurn (by decide) (by decide)

/-- C2, evaluated on the code: the overlay is mounted enabled during the
player's turn, its statistics arrive, and the round ends; in the state reached
`gameState.state` is `round_over` and the overlay still renders the panel with
the statistics of the finished turn. -/
theorem C2_stale_statistics_rendered :
    (StatisticsOverlay.run exOverlayProps exOverlayEvents).props.gameState.state =
      "round_over" ∧
    (StatisticsOverlay.run exOverlayProps exOverlayEvents).statistics = some exStatistics ∧
    StatisticsOverlay.render (StatisticsOverlay.run exOverlayProps exOverlayEvents) =
      some (OverlayView.mk exStatistics) ∧
    StatisticsOverlay.render (StatisticsOverlay.run exOverlayProps exOverlayEvents) ≠ none := by
  refine ⟨by decide, rfl, rfl, ?_⟩
  have h : StatisticsOverlay.render (StatisticsOverlay.run exOverlayProps exOverlayEvents) =
      some (OverlayView.mk exStatistics) := rfl
  rw [h]
  simp

/-- C3: the arguments the action buttons pass to `performAction` are exactly
`gameState.valid_actions`, in order, when the state is `player_turn`, and there
is no action button in any other state; every button rendered in the actions
block is such a button, and `performAction` sends the name it is given
unchanged in its action request. -/
theorem C3_offered_actions (upper : String → String) (st : AppState) (gameState : GameState) :
    App.offeredActions (App.playScreen upper st gameState) =
      (if gameState.state = "player_turn" then gameState.valid_actions else []) ∧
    ((App.playScreen upper st gameState).actions.getD []).map (fun b => b.onClick) =
      (App.offeredActions (App.playScreen upper st gameState)).map Handler.performAction ∧
    (gameState.state ≠ "player_turn" → (App.playScreen upper st gameState).actions = none) ∧
    (∀ action sid reply resultsReply, truthySession st.sessionId = some sid →
      ((Handler.performAction action).run st reply resultsReply).2.head? =
        some (Request.action sid action)) := by
  refine ⟨?_, ?_, ?_, ?_⟩
  · by_cases h : gameState.state = "player_turn"
    · simp [App.offeredActions, App.playScreen, isPlayerTurn, h, App.actionButtons,
        List.filterMap_map, Function.comp_def]
    · simp [App.offeredActions, App.playScreen, isPlayerTurn, h]
  · by_cases h : gameState.state = "player_turn"
    · simp [App.offeredActions, App.playScreen, isPlayerTurn, h, App.actionButtons,
        List.filterMap_map, Function.comp_def]
    · simp [App.offeredActions, App.playScreen, isPlayerTurn, h]
  · intro h
    simp [App.playScreen, isPlayerTurn, h]
  · intro action sid reply resultsReply hsid
    cases reply with
    | failed => simp [Handler.run, performAction, hsid]
    | ok data =>
      by_cases hover : data.state = "round_over" <;>
        simp [Handler.run, performAction, hsid, hover]

/-- C4: with a truthy session id and a successful action response `r`,
`performAction` sets `gameState` to `r`; it queries the results endpoint exactly
when `r.state` is `round_over`, and then sets `results` to the list returned;
otherwise the action request is the only request and `results` is unchanged. -/
theorem C4_performAction_success (st : AppState) (sid action : String) (r : GameState)
    (resultsReply : Reply ResultsData) (hsid : truthySession st.sessionId = some sid) :
    (performAction st action (Reply.ok r) resultsReply).1.gameState = some r ∧
    (Request.results sid ∈ (performAction st action (Reply.ok r) resultsReply).2 ↔
      r.state = "round_over") ∧
    (r.state = "round_over" →
      (performAction st action (Reply.ok r) resultsReply).2 =
        [Request.action sid action, Request.results sid] ∧
      ∀ data, resultsReply = Reply.ok data →
        (performAction st action (Reply.ok r) resultsReply).1.results = some data.results) ∧
    (r.state ≠ "round_over" →
      (performAction st action (Reply.ok r) resultsReply).2 = [Request.action sid action] ∧
      (performAction st action (Reply.ok r) resultsReply).1.results = st.results) := by
  by_cases hover : r.state = "round_over"
  · refine ⟨?_, ?_, ?_, ?_⟩
    · cases resultsReply <;> simp [performAction, hsid, hover]
    · simp [performAction, hsid, hover]
    · intro _
      refine ⟨by simp [performAction, hsid, hover], ?_⟩
      intro data hdata
      subst hdata
      simp [performAction, hsid, hover]
    · intro h
      exact absurd hover h
  · refine ⟨?_, ?_, ?_, ?_⟩
    · simp [performAction, hsid, hover]
    · simp [performAction, hsid, hover]
    · intro h
      exact absurd h hover
    · intro _
      simp [performAction, hsid, hover]

theorem C4_performAction_success_witness :
    (performAction exAppState "stand" (Reply.ok exRoundOver)
        exResultsReply).1.gameState =
      some exRoundOver ∧
    (Request.results "s-1" ∈ (performAction exAppState "stand" (Reply.ok exRoundOver)
        exResultsReply).2 ↔
      exRoundOver.state = "round_over") ∧
    (exRoundOver.state = "round_over" →
      (performAction exAppState "stand" (Reply.ok exRoundOver)
        exResultsReply).2 =
        [Request.action "s-1" "stand", Request.results "s-1"] ∧
      ∀ data, exResultsReply = Reply.ok data →
        (performAction exAppState "stand" (Reply.ok exRoundOver)
          exResultsReply).1.results =
          some data.results) ∧
    (exRoundOver.state ≠ "round_over" →
      (performAction exAppState "stand" (Reply.ok exRoundOver)
        exResultsReply).2 =
        [Request.action "s-1" "stand"] ∧
      (performAction exAppState "stand" (Reply.ok exRoundOver)
        exResultsReply).1.results =
        exAppState.results) :=
  C4_performAction_success exAppState "s-1" "stand" exRoundOver
    exResultsReply (by decide)

/-- C5: when the request of `placeBet`, the action request of `performAction`
or the request of `startNewRound` fails, `sessionId`, `gameState` and `results`
are what they were before the call and `loading` is false after it. -/
theorem C5_unchanged_on_error (st : AppState) (sid action : String)
    (resultsReply : Reply ResultsData) (hsid : truthySession st.sessionId = some sid) :
    ((placeBet st Reply.failed).2 = [Request.bet sid st.betAmount] ∧
      (performAction st action Reply.failed resultsReply).2 = [Request.action sid action] ∧
      (startNewRound st Reply.failed).2 = [Request.newRound sid]) ∧
    ∀ out ∈ [(placeBet st Reply.failed).1,
        (performAction st action Reply.failed resultsReply).1,
        (startNewRound st Reply.failed).1],
      out.sessionId = st.sessionId ∧ out.gameState = st.gameState ∧
        out.results = st.results ∧ out.loading = false := by
  refine ⟨by simp [placeBet, performAction, startNewRound, hsid], ?_⟩
  intro out hout
  simp only [List.mem_cons, List.mem_singleton, List.not_mem_nil, or_false] at hout
  rcases hout with h | h | h <;> subst h <;>
    simp [placeBet, performAction, startNewRound, hsid]

theorem C5_unchanged_on_error_witness :
    ((placeBet exAppState Reply.failed).2 = [Request.bet "s-1" exAppState.betAmount] ∧
      (performAction exAppState "hit" Reply.failed Reply.failed).2 =
        [Request.action "s-1" "hit"] ∧
      (startNewRound exAppState Reply.failed).2 = [Request.newRound "s-1"]) ∧
    ∀ out ∈ [(placeBet exAppState Reply.failed).1,
        (performAction exAppState "hit" Reply.failed Reply.failed).1,
        (startNewRound exAppState Reply.failed).1],
      out.sessionId = exAppState.sessionId ∧ out.gameState = exAppState.gameState ∧
        out.results = exAppState.results ∧ out.loading = false :=
  C5_unchanged_on_error exAppState "s-1" "hit" Reply.failed (by decide)

/-- C6, as stated, fails: the four ROI displays neither all multiply the
received number by 100 nor all show it as received. -/
theorem C6_counterexample :
    ¬ ((∀ x : ℚ, SimulationPanel.summaryRoiNumber x = x * 100 ∧
          SimulationPanel.runRoiNumber x = x * 100 ∧
          SimulationPanel.comparisonRoiNumber x = x * 100 ∧
          StrategyTester.roiNumber x = x * 100) ∨
       (∀ x : ℚ, SimulationPanel.summaryRoiNumber x = x ∧
          SimulationPanel.runRoiNumber x = x ∧
          SimulationPanel.comparisonRoiNumber x = x ∧
          StrategyTester.roiNumber x = x)) := by
  rintro (h | h)
  · have h1 := (h 1).1
    norm_num [SimulationPanel.summaryRoiNumber] at h1
  · have h1 := (h 1).2.2.2
    norm_num [StrategyTester.roiNumber] at h1

/-- C6, amended: SimulationPanel formats the ROI it receives unscaled in all
three places (summary, individual run, comparison row), while StrategyTester
formats the received ROI multiplied by 100, as `formatPercentage` does with its
argument; each text is the `toFixed` of that number followed by a percent sign. -/
theorem C6_roi_scaling (x : ℚ) :
    (SimulationPanel.summaryRoiNumber x = x ∧ SimulationPanel.runRoiNumber x = x ∧
      SimulationPanel.comparisonRoiNumber x = x) ∧
    (StrategyTester.roiNumber x = x * 100 ∧ StatisticsOverlay.percentageNumber x = x * 100) ∧
    (SimulationPanel.summaryRoiText x = toFixed x 2 ++ "%" ∧
      SimulationPanel.comparisonRoiText x = toFixed x 2 ++ "%" ∧
      StrategyTester.roiText x = toFixed (x * 100) 2 ++ "%") :=
  ⟨⟨rfl, rfl, rfl⟩, ⟨rfl, rfl⟩, ⟨rfl, rfl, rfl⟩⟩

/-- C7: the body of `compareStrategies` has exactly the keys `num_hands`,
`num_simulations`, `starting_bankroll` and `base_bet`; under each of them it
carries the value the body of `runSimulation` carries for the same config; it
has no `playing_strategy` and no `betting_strategy`. -/
theorem C7_compare_body (simulationConfig : SimulationConfig) :
    Body.keys (SimulationPanel.compareStrategiesBody simulationConfig) =
      ["num_hands", "num_simulations", "starting_bankroll", "base_bet"] ∧
    (∀ k ∈ Body.keys (SimulationPanel.compareStrategiesBody simulationConfig),
      ∃ v, Body.get (SimulationPanel.compareStrategiesBody simulationConfig) k = some v ∧
        Body.get (SimulationPanel.runSimulationBody simulationConfig) k = some v) ∧
    Body.get (SimulationPanel.compareStrategiesBody simulationConfig) "playing_strategy" = none ∧
    Body.get (SimulationPanel.compareStrategiesBody simulationConfig) "betting_strategy" = none := by
  refine ⟨rfl, ?_, ?_, ?_⟩
  · intro k hk
    simp only [Body.keys, SimulationPanel.compareStrategiesBody, List.map_cons, List.map_nil,
      List.mem_cons, List.mem_singleton, List.not_mem_nil, or_false] at hk
    rcases hk with h | h | h | h <;> subst h <;>
      simp [Body.get, SimulationPanel.compareStrategiesBody, SimulationPanel.runSimulationBody]
  · simp [Body.get, SimulationPanel.compareStrategiesBody]
  · simp [Body.get, SimulationPanel.compareStrategiesBody]

theorem NumObject.get_set_self (m : NumObject) (k : String) (v : JsNum) :
    NumObject.get (NumObject.set m k v) k = some v := by
  induction m with
  | nil => simp [NumObject.set, NumObject.get]
  | cons p rest ih =>
    obtain ⟨k', v'⟩ := p
    by_cases h : k' = k
    · simp [NumObject.set, NumObject.get, h]
    · simp [NumObject.set, NumObject.get, h, ih]

theorem NumObject.get_set_other (m : NumObject) (k k' : String) (v : JsNum) (hne : k' ≠ k) :
    NumObject.get (NumObject.set m k v) k' = NumObject.get m k' := by
  induction m with
  | nil => simp [NumObject.set, NumObject.get, Ne.symm hne]
  | cons p rest ih =>
    obtain ⟨k0, v0⟩ := p
    by_cases h : k0 = k
    · subst h
      simp [NumObject.set, NumObject.get, Ne.symm hne]
    · by_cases h' : k0 = k'
      · subst h'
        simp [NumObject.set, NumObject.get, h]
      · simp [NumObject.set, NumObject.get, h, h', ih]

theorem infinite_ite_iff (sign : Int) (b : Prop) [Decidable b] (v : JsNum)
    (hv : v ≠ JsNum.infinity ∧ v ≠ JsNum.negInfinity) :
    (((if b then (if sign < 0 then JsNum.negInfinity else JsNum.infinity) else v) =
        JsNum.infinity ∨
      (if b then (if sign < 0 then JsNum.negInfinity else JsNum.infinity) else v) =
        JsNum.negInfinity) ↔ b) := by
  by_cases hb : b <;> by_cases hs : sign < 0 <;> simp [hb, hs, hv.1, hv.2]

set_option exponentiation.threshold 2048 in
theorem toDouble_infinite_iff (sign : Int) (n : Nat) :
    (toDouble sign n = JsNum.infinity ∨ toDouble sign n = JsNum.negInfinity) ↔
      2 ^ 1024 - 2 ^ 970 ≤ n := by
  unfold toDouble
  by_cases h1 : n < 2 ^ 53
  · simp only [h1, if_true]
    constructor
    · rintro (h | h) <;> simp at h
    · intro h
      omega
  by_cases h2 : 2 ^ 1024 ≤ n
  · simp only [h1, h2, if_true, if_false]
    constructor
    · intro _
      omega
    · intro _
      by_cases hs : sign < 0 <;> simp [hs]
  simp only [h1, h2, if_false]
  rw [infinite_ite_iff sign _ _ ⟨fun h => JsNum.noConfusion h, fun h => JsNum.noConfusion h⟩]
  have hn0 : n ≠ 0 := by omega
  have hL1 : 53 ≤ Nat.log2 n := by
    by_contra hc
    exact h1 ((Nat.log2_lt hn0).1 (Nat.lt_of_not_ge hc))
  have hL2 : Nat.log2 n < 1024 := (@Nat.log2_lt n 1024 hn0).2 (by omega)
  have hhigh : n < 2 ^ (Nat.log2 n + 1) := Nat.lt_log2_self
  by_cases hL : Nat.log2 n = 1023
  · have hlow : 2 ^ 1023 ≤ n := by
      have := Nat.log2_self_le hn0
      rwa [hL] at this
    simp only [hL, Nat.reduceSub]
    by_cases hc : 2 ^ 970 < n % 2 ^ 971 ∨ (n % 2 ^ 971 = 2 ^ 970 ∧ n / 2 ^ 971 % 2 = 1)
    · simp only [hc, if_true]
      omega
    · simp only [hc, if_false]
      omega
  · have hle : Nat.log2 n + 1 ≤ 1023 := by omega
    have hpow : 2 ^ (Nat.log2 n + 1) ≤ 2 ^ 1023 := Nat.pow_le_pow_right (by decide) hle
    have hsplit : 2 ^ (Nat.log2 n + 1) = 2 ^ 53 * 2 ^ (Nat.log2 n - 52) := by
      rw [← Nat.pow_add]
      congr 1
      omega
    have hq : n / 2 ^ (Nat.log2 n - 52) < 2 ^ 53 := by
      rw [Nat.div_lt_iff_lt_mul (Nat.pos_pow_of_pos _ (by decide))]
      rw [← hsplit]
      exact hhigh
    constructor
    · intro h
      exfalso
      have hq1 : (if 2 ^ (Nat.log2 n - 52 - 1) < n % 2 ^ (Nat.log2 n - 52) ∨
          n % 2 ^ (Nat.log2 n - 52) = 2 ^ (Nat.log2 n - 52 - 1) ∧
            n / 2 ^ (Nat.log2 n - 52) % 2 = 1 then n / 2 ^ (Nat.log2 n - 52) + 1
          else n / 2 ^ (Nat.log2 n - 52)) ≤ 2 ^ 53 := by
        split <;> omega
      have := Nat.mul_le_mul_right (2 ^ (Nat.log2 n - 52)) hq1
      rw [← hsplit] at this
      omega
    · intro h
      omega

theorem toDouble_cases (sign : Int) (n : Nat) :
    (∃ m : Int, toDouble sign n = JsNum.num m) ∨ toDouble sign n = JsNum.infinity ∨
      toDouble sign n = JsNum.negInfinity := by
  by_cases hinf : toDouble sign n = JsNum.infinity ∨ toDouble sign n = JsNum.negInfinity
  · exact Or.inr hinf
  · left
    unfold toDouble at hinf ⊢
    by_cases h1 : n < 2 ^ 53
    · rw [if_pos h1]
      exact ⟨_, rfl⟩
    · rw [if_neg h1] at hinf ⊢
      by_cases h2 : 2 ^ 1024 ≤ n
      · rw [if_pos h2] at hinf
        exfalso
        apply hinf
        by_cases hs : sign < 0
        · rw [if_pos hs]
          exact Or.inr rfl
        · rw [if_neg hs]
          exact Or.inl rfl
      · rw [if_neg h2] at hinf ⊢
        rw [infinite_ite_iff sign _ _
          ⟨fun h => JsNum.noConfusion h, fun h => JsNum.noConfusion h⟩] at hinf
        rw [if_neg hinf]
        exact ⟨_, rfl⟩

theorem parseInt_cases (s : String) :
    parseInt s = JsNum.nan ∨ (∃ n : Int, parseInt s = JsNum.num n) ∨
      parseInt s = JsNum.infinity ∨ parseInt s = JsNum.negInfinity := by
  unfold parseInt
  cases parseIntParts s with
  | none => exact Or.inl rfl
  | some p =>
    obtain ⟨sign, n⟩ := p
    exact Or.inr (toDouble_cases sign n)

theorem parseInt_exact (s : String) (sign : Int) (n : Nat)
    (hparts : parseIntParts s = some (sign, n)) (hn : n < 2 ^ 53) :
    parseInt s = JsNum.num ((sign * (n : Int) : Int) : ℚ) := by
  unfold parseInt
  rw [hparts]
  show toDouble sign n = _
  unfold toDouble
  rw [if_pos hn]

theorem parseInt_infinite_iff (s : String) :
    (parseInt s = JsNum.infinity ∨ parseInt s = JsNum.negInfinity) ↔
      ∃ sign n, parseIntParts s = some (sign, n) ∧ 2 ^ 1024 - 2 ^ 970 ≤ n := by
  unfold parseInt
  cases hparts : parseIntParts s with
  | none =>
    constructor
    · rintro (h | h) <;> exact JsNum.noConfusion h
    · rintro ⟨_, _, h, _⟩
      exact Option.noConfusion h
  | some p =>
    obtain ⟨sign, n⟩ := p
    simp only [toDouble_infinite_iff, Option.some.injEq, Prod.mk.injEq]
    constructor
    · intro h
      exact ⟨sign, n, ⟨rfl, rfl⟩, h⟩
    · rintro ⟨sign0, n0, ⟨_, rfl⟩, h⟩
      exact h

set_option maxRecDepth 100000 in
set_option exponentiation.threshold 2048 in
theorem parseInt_exLongDigits : parseInt exLongDigits = JsNum.infinity := by
  decide

theorem orElse_integer (v : JsNum) (d : Int)
    (hv : v = JsNum.nan ∨ ∃ n : Int, v = JsNum.num n) :
    ∃ n : Int, v.orElse (JsNum.num d) = JsNum.num n ∧
      (n = d ∨ (n ≠ 0 ∧ v = JsNum.num n)) := by
  rcases hv with h | ⟨n, h⟩
  · subst h
    exact ⟨d, rfl, Or.inl rfl⟩
  · subst h
    by_cases hn : n = 0
    · subst hn
      exact ⟨d, by simp [JsNum.orElse], Or.inl rfl⟩
    · refine ⟨n, ?_, Or.inr ⟨hn, rfl⟩⟩
      have : (n : ℚ) ≠ 0 := by exact_mod_cast hn
      simp [JsNum.orElse, this]

theorem exCardValues_integer :
    ∀ k v, NumObject.get exCardValues k = some v → v.IsInteger := by
  intro k v h
  simp only [exCardValues, NumObject.get] at h
  split_ifs at h <;> simp only [Option.some.injEq, reduceCtorEq] at h
  · exact ⟨1, by rw [← h]; norm_num⟩
  · exact ⟨1, by rw [← h]; norm_num⟩
  · exact ⟨-1, by rw [← h]; norm_num⟩
  · exact ⟨-1, by rw [← h]; norm_num⟩

/-- C8, as stated, fails: on the Hi-Lo map, whose weights are integers,
`handleCardValueChange('3', s)` with `s` a string of 400 nines stores Infinity
under `3`, which is not an integer. -/
theorem C8_counterexample :
    ¬ ((∀ k v, NumObject.get exCardState.cardValues k = some v → v.IsInteger) →
        ∃ n : Int,
          NumObject.get
              (StrategyTester.handleCardValueChange exCardState "3" exLongDigits).cardValues
              "3" = some (JsNum.num n)) := by
  intro h
  obtain ⟨n, hn⟩ := h exCardValues_integer
  have hself : NumObject.get
      (StrategyTester.handleCardValueChange exCardState "3" exLongDigits).cardValues "3" =
      some JsNum.infinity := by
    simp [StrategyTester.handleCardValueChange, NumObject.get_set_self, parseInt_exLongDigits,
      JsNum.orElse]
  rw [hself] at hn
  simp at hn

/-- C8, amended: after `handleCardValueChange(c, s)` on a card-value map whose
weights are integers, the weight of `c` is never NaN: it is `parseInt(s)` when
that is a non-zero integer or an infinity, and 0 when it is NaN or 0; every
weight is an integer or an infinity, and every weight is an integer when the
integer read from `s` is below 2^1024 - 2^970, the first magnitude that rounds
to Infinity; the weight of every other label is unchanged. -/
theorem C8_card_value_integer_or_infinity (st : StrategyState) (c s : String)
    (hint : ∀ k v, NumObject.get st.cardValues k = some v → v.IsInteger) :
    (∀ k v, NumObject.get (StrategyTester.handleCardValueChange st c s).cardValues k = some v →
      v.IsInteger ∨ v = JsNum.infinity ∨ v = JsNum.negInfinity) ∧
    ((∀ sign n, parseIntParts s = some (sign, n) → n < 2 ^ 1024 - 2 ^ 970) →
      ∀ k v, NumObject.get (StrategyTester.handleCardValueChange st c s).cardValues k = some v →
        v.IsInteger) ∧
    (∀ n : Int, n ≠ 0 → parseInt s = JsNum.num n →
      NumObject.get (StrategyTester.handleCardValueChange st c s).cardValues c =
        some (JsNum.num n)) ∧
    ((parseInt s = JsNum.nan ∨ parseInt s = JsNum.num 0) →
      NumObject.get (StrategyTester.handleCardValueChange st c s).cardValues c =
        some (JsNum.num 0)) ∧
    ((parseInt s = JsNum.infinity ∨ parseInt s = JsNum.negInfinity) →
      NumObject.get (StrategyTester.handleCardValueChange st c s).cardValues c =
        some (parseInt s)) ∧
    NumObject.get (StrategyTester.handleCardValueChange st c s).cardValues c ≠
      some JsNum.nan ∧
    (∀ sign n, parseIntParts s = some (sign, n) → n < 2 ^ 53 →
      parseInt s = JsNum.num ((sign * (n : Int) : Int) : ℚ)) ∧
    (∀ c', c' ≠ c →
      NumObject.get (StrategyTester.handleCardValueChange st c s).cardValues c' =
        NumObject.get st.cardValues c') := by
  have hself : NumObject.get (StrategyTester.handleCardValueChange st c s).cardValues c =
      some ((parseInt s).orElse (JsNum.num 0)) := by
    simp [StrategyTester.handleCardValueChange, NumObject.get_set_self]
  have hother : ∀ c', c' ≠ c →
      NumObject.get (StrategyTester.handleCardValueChange st c s).cardValues c' =
        NumObject.get st.cardValues c' := by
    intro c' hne
    simp [StrategyTester.handleCardValueChange, NumObject.get_set_other _ _ _ _ hne]
  have hfinite : (parseInt s = JsNum.nan ∨ ∃ n : Int, parseInt s = JsNum.num n) →
      ∃ n : Int, (parseInt s).orElse (JsNum.num 0) = JsNum.num n := by
    intro hv
    obtain ⟨n, hn0, _⟩ := orElse_integer (parseInt s) 0 hv
    exact ⟨n, by simpa using hn0⟩
  refine ⟨?_, ?_, ?_, ?_, ?_, ?_, fun sign n hp hn => parseInt_exact s sign n hp hn, hother⟩
  · intro k v hk
    by_cases hkc : k = c
    · subst hkc
      rw [hself] at hk
      simp only [Option.some.injEq] at hk
      rcases parseInt_cases s with h | h | h | h
      · obtain ⟨n, hn⟩ := hfinite (Or.inl h)
        exact Or.inl ⟨n, by rw [← hk, hn]⟩
      · obtain ⟨n, hn⟩ := hfinite (Or.inr h)
        exact Or.inl ⟨n, by rw [← hk, hn]⟩
      · exact Or.inr (Or.inl (by rw [← hk, h]; rfl))
      · exact Or.inr (Or.inr (by rw [← hk, h]; rfl))
    · rw [hother k hkc] at hk
      exact Or.inl (hint k v hk)
  · intro hbound k v hk
    by_cases hkc : k = c
    · subst hkc
      rw [hself] at hk
      simp only [Option.some.injEq] at hk
      have hnotinf : ¬ (parseInt s = JsNum.infinity ∨ parseInt s = JsNum.negInfinity) := by
        rw [parseInt_infinite_iff]
        rintro ⟨sign, n, hp, hn⟩
        have := hbound sign n hp
        omega
      rcases parseInt_cases s with h | h | h | h
      · obtain ⟨n, hn⟩ := hfinite (Or.inl h)
        exact ⟨n, by rw [← hk, hn]⟩
      · obtain ⟨n, hn⟩ := hfinite (Or.inr h)
        exact ⟨n, by rw [← hk, hn]⟩
      · exact absurd (Or.inl h) hnotinf
      · exact absurd (Or.inr h) hnotinf
    · rw [hother k hkc] at hk
      exact hint k v hk
  · intro m hm hparse
    have hm' : (m : ℚ) ≠ 0 := by exact_mod_cast hm
    rw [hself, hparse]
    simp [JsNum.orElse, hm']
  · rintro (h | h) <;> rw [hself, h] <;> simp [JsNum.orElse]
  · rintro (h | h) <;> rw [hself, h] <;> rfl
  · rw [hself]
    rcases parseInt_cases s with h | h | h | h
    · obtain ⟨n, hn⟩ := hfinite (Or.inl h)
      rw [hn]
      simp
    · obtain ⟨n, hn⟩ := hfinite (Or.inr h)
      rw [hn]
      simp
    · rw [h]
      simp [JsNum.orElse]
    · rw [h]
      simp [JsNum.orElse]

theorem C8_card_value_integer_or_infinity_witness :
    (∀ k v, NumObject.get (StrategyTester.handleCardValueChange exCardState "3" "-2x").cardValues
        k = some v → v.IsInteger ∨ v = JsNum.infinity ∨ v = JsNum.negInfinity) ∧
    ((∀ sign n, parseIntParts "-2x" = some (sign, n) → n < 2 ^ 1024 - 2 ^ 970) →
      ∀ k v, NumObject.get (StrategyTester.handleCardValueChange exCardState "3" "-2x").cardValues
        k = some v → v.IsInteger) ∧
    (∀ n : Int, n ≠ 0 → parseInt "-2x" = JsNum.num n →
      NumObject.get (StrategyTester.handleCardValueChange exCardState "3" "-2x").cardValues "3" =
        some (JsNum.num n)) ∧
    ((parseInt "-2x" = JsNum.nan ∨ parseInt "-2x" = JsNum.num 0) →
      NumObject.get (StrategyTester.handleCardValueChange exCardState "3" "-2x").cardValues "3" =
        some (JsNum.num 0)) ∧
    ((parseInt "-2x" = JsNum.infinity ∨ parseInt "-2x" = JsNum.negInfinity) →
      NumObject.get (StrategyTester.handleCardValueChange exCardState "3" "-2x").cardValues "3" =
        some (parseInt "-2x")) ∧
    NumObject.get (StrategyTester.handleCardValueChange exCardState "3" "-2x").cardValues "3" ≠
      some JsNum.nan ∧
    (∀ sign n, parseIntParts "-2x" = some (sign, n) → n < 2 ^ 53 →
      parseInt "-2x" = JsNum.num ((sign * (n : Int) : Int) : ℚ)) ∧
    (∀ c', c' ≠ "3" →
      NumObject.get (StrategyTester.handleCardValueChange exCardState "3" "-2x").cardValues c' =
        NumObject.get exCardState.cardValues c') :=
  C8_card_value_integer_or_infinity exCardState "3" "-2x" exCardValues_integer

/-- C9, as stated, fails: in the initial state the body carries the
penetration 72, which is not in the interval [0, 1]. -/
theorem C9_counterexample :
    ¬ (∀ v, Body.get (StrategyTester.runSimulationBody String.toUpper StrategyState.initial)
          "penetration" = some (BodyValue.num v) → v.InUnitInterval) := by
  intro h
  obtain ⟨q, hq, _, hle⟩ := h (JsNum.num 72) (by
    simp [Body.get, StrategyTester.runSimulationBody, StrategyState.initial])
  simp only [JsNum.num.injEq] at hq
  rw [← hq] at hle
  norm_num at hle

/-- C9, amended: the body carries the stored penetration unscaled; the stored
value is 72 in the initial state and, after the Penetration input handler,
`parseInt` of the input, or 72 when that is NaN or 0: never NaN and never 0, a
non-zero integer unless the input's digits overflow to an infinity.  It is in
the interval [0, 1] only when it is 1. -/
theorem C9_penetration_sent_as_percentage (upper : String → String) (st : StrategyState)
    (s : String) :
    Body.get (StrategyTester.runSimulationBody upper st) "penetration" =
      some (BodyValue.num st.penetration) ∧
    Body.get (StrategyTester.runSimulationBody upper StrategyState.initial) "penetration" =
      some (BodyValue.num (JsNum.num 72)) ∧
    (StrategyTester.onPenetrationChange st s).penetration =
      (parseInt s).orElse (JsNum.num 72) ∧
    (StrategyTester.onPenetrationChange st s).penetration ≠ JsNum.nan ∧
    (StrategyTester.onPenetrationChange st s).penetration ≠ JsNum.num 0 ∧
    ((∃ n : Int, n ≠ 0 ∧
        (StrategyTester.onPenetrationChange st s).penetration = JsNum.num n ∧
        ((n = 72 ∧ (parseInt s = JsNum.nan ∨ parseInt s = JsNum.num 0)) ∨
          parseInt s = JsNum.num n)) ∨
      ((parseInt s = JsNum.infinity ∨ parseInt s = JsNum.negInfinity) ∧
        (StrategyTester.onPenetrationChange st s).penetration = parseInt s)) ∧
    ((StrategyTester.onPenetrationChange st s).penetration.InUnitInterval ↔
      (StrategyTester.onPenetrationChange st s).penetration = JsNum.num 1) := by
  have hunit : ∀ n : Int, ((JsNum.num n).InUnitInterval → n ≠ 0 → JsNum.num (n : ℚ) = JsNum.num 1) := by
    intro n
    rintro ⟨q, hq, h0, h1⟩ hn
    simp only [JsNum.num.injEq] at hq
    rw [← hq] at h0 h1
    have h0' : (0 : Int) ≤ n := by exact_mod_cast h0
    have h1' : n ≤ 1 := by exact_mod_cast h1
    have : n = 1 := by omega
    subst this
    simp
  have hone : (JsNum.num 1).InUnitInterval := ⟨1, rfl, by norm_num, by norm_num⟩
  have hpen : (StrategyTester.onPenetrationChange st s).penetration =
      (parseInt s).orElse (JsNum.num 72) := rfl
  have hmain : ((∃ n : Int, n ≠ 0 ∧
        (parseInt s).orElse (JsNum.num 72) = JsNum.num n ∧
        ((n = 72 ∧ (parseInt s = JsNum.nan ∨ parseInt s = JsNum.num 0)) ∨
          parseInt s = JsNum.num n)) ∨
      ((parseInt s = JsNum.infinity ∨ parseInt s = JsNum.negInfinity) ∧
        (parseInt s).orElse (JsNum.num 72) = parseInt s)) := by
    rcases parseInt_cases s with hp | ⟨m, hp⟩ | hp | hp
    · exact Or.inl ⟨72, by decide, by simp [hp, JsNum.orElse], Or.inl ⟨rfl, Or.inl hp⟩⟩
    · by_cases hm : m = 0
      · subst hm
        exact Or.inl ⟨72, by decide, by simp [hp, JsNum.orElse],
          Or.inl ⟨rfl, Or.inr (by simpa using hp)⟩⟩
      · have hm' : (m : ℚ) ≠ 0 := by exact_mod_cast hm
        exact Or.inl ⟨m, hm, by simp [hp, JsNum.orElse, hm'], Or.inr hp⟩
    · exact Or.inr ⟨Or.inl hp, by rw [hp]; rfl⟩
    · exact Or.inr ⟨Or.inr hp, by rw [hp]; rfl⟩
  refine ⟨by simp [Body.get, StrategyTester.runSimulationBody],
    by simp [Body.get, StrategyTester.runSimulationBody, StrategyState.initial], hpen, ?_, ?_,
    ?_, ?_⟩
  · rw [hpen]
    rcases hmain with ⟨n, _, hn, _⟩ | ⟨hp, he⟩
    · rw [hn]
      simp
    · rw [he]
      rcases hp with hp | hp <;> rw [hp] <;> simp
  · rw [hpen]
    rcases hmain with ⟨n, hn0, hn, _⟩ | ⟨hp, he⟩
    · rw [hn]
      intro h
      simp only [JsNum.num.injEq] at h
      exact hn0 (by exact_mod_cast h)
    · rw [he]
      rcases hp with hp | hp <;> rw [hp] <;> simp
  · rw [hpen]
    exact hmain
  · rw [hpen]
    constructor
    · intro h
      rcases hmain with ⟨n, hn0, hn, _⟩ | ⟨hp, he⟩
      · rw [hn] at h ⊢
        exact hunit n h hn0
      · rw [he] at h
        obtain ⟨q, hq, _, _⟩ := h
        rcases hp with hp | hp <;> rw [hp] at hq <;> simp at hq
    · intro h
      rw [h]
      exact hone

theorem highValue_eq_lowValue (r : Rank) :
    r.highValue = r.lowValue + (if r = Rank.ace then 10 else 0) := by
  cases r <;> rfl

theorem highTotal_eq (cards : List Rank) :
    (cards.map Rank.highValue).sum = hardTotal cards + 10 * cards.count Rank.ace := by
  induction cards with
  | nil => rfl
  | cons r rest ih =>
    have ih' : (List.map Rank.highValue rest).sum =
        (List.map Rank.lowValue rest).sum + 10 * List.count Rank.ace rest := ih
    by_cases hr : r = Rank.ace
    · subst hr
      simp only [hardTotal, List.map_cons, List.sum_cons, List.count_cons_self, ih']
      simp only [Rank.highValue, Rank.lowValue]
      omega
    · have hcount : List.count Rank.ace (r :: rest) = List.count Rank.ace rest :=
        List.count_cons_of_ne (Ne.symm hr) rest
      simp only [hardTotal, List.map_cons, List.sum_cons, hcount, ih']
      have := highValue_eq_lowValue r
      simp only [hr, if_false] at this
      omega

theorem demoteAces_spec (aces : Nat) : ∀ hard : Nat,
    (demoteAces (hard + 10 * aces) aces).1 = hard + 10 * (demoteAces (hard + 10 * aces) aces).2 ∧
    (demoteAces (hard + 10 * aces) aces).2 ≤ aces ∧
    ((demoteAces (hard + 10 * aces) aces).2 < aces →
      21 < hard + 10 * ((demoteAces (hard + 10 * aces) aces).2 + 1)) ∧
    (0 < (demoteAces (hard + 10 * aces) aces).2 →
      (demoteAces (hard + 10 * aces) aces).1 ≤ 21) := by
  induction aces with
  | zero =>
    intro hard
    simp [demoteAces]
  | succ a ih =>
    intro hard
    by_cases hgt : hard + 10 * (a + 1) > 21
    · have hstep : demoteAces (hard + 10 * (a + 1)) (a + 1) = demoteAces (hard + 10 * a) a := by
        have : hard + 10 * (a + 1) - 10 = hard + 10 * a := by omega
        simp [demoteAces, hgt, this]
      rw [hstep]
      obtain ⟨h1, h2, h3, h4⟩ := ih hard
      refine ⟨h1, by omega, ?_, h4⟩
      intro hlt
      by_cases hk : (demoteAces (hard + 10 * a) a).2 < a
      · exact h3 hk
      · have : (demoteAces (hard + 10 * a) a).2 = a := by omega
        rw [this]
        omega
    · have hstep : demoteAces (hard + 10 * (a + 1)) (a + 1) = (hard + 10 * (a + 1), a + 1) := by
        simp [demoteAces, hgt]
      rw [hstep]
      refine ⟨rfl, le_refl _, ?_, ?_⟩
      · intro h
        simp at h
      · intro _
        simp only
        omega

/-- C10: the hand value is the total with every Ace counted as 1 plus 10 for
each Ace still counted as 11; an Ace is demoted only when keeping it at 11 would
exceed 21, and one stays at 11 only when the value does not exceed 21; the hand
is soft iff at least one Ace is still counted as 11; the value exceeds 21 only
when the total with every Ace counted as 1 does; and two Aces make a soft 12. -/
theorem C10_hand_value (cards : List Rank) :
    evaluateHand cards =
      demoteAces (cards.map Rank.highValue).sum (cards.count Rank.ace) ∧
    handValue cards = hardTotal cards + 10 * (evaluateHand cards).2 ∧
    (evaluateHand cards).2 ≤ cards.count Rank.ace ∧
    ((evaluateHand cards).2 < cards.count Rank.ace →
      21 < hardTotal cards + 10 * ((evaluateHand cards).2 + 1)) ∧
    (0 < (evaluateHand cards).2 → handValue cards ≤ 21) ∧
    (handIsSoft cards = true ↔ 1 ≤ (evaluateHand cards).2) ∧
    (21 < handValue cards → 21 < hardTotal cards) ∧
    handValue [Rank.ace, Rank.ace] = 12 ∧ handIsSoft [Rank.ace, Rank.ace] = true := by
  have hspec := demoteAces_spec (cards.count Rank.ace) (hardTotal cards)
  rw [← highTotal_eq cards] at hspec
  obtain ⟨h1, h2, h3, h4⟩ := hspec
  refine ⟨rfl, h1, h2, h3, h4, by simp [handIsSoft], ?_, by decide, by decide⟩
  intro hbust
  have hv : handValue cards = hardTotal cards + 10 * (evaluateHand cards).2 := h1
  by_cases hk : 0 < (evaluateHand cards).2
  · have := h4 hk
    have hle : handValue cards ≤ 21 := this
    omega
  · have hz : (evaluateHand cards).2 = 0 := by omega
    rw [hz] at hv
    omega

/-- C12: with a truthy session id and a successful new-round response,
`startNewRound` leaves `sessionId` unchanged, sets `gameState` to the response's
`game_state` and `results` to null; with a null `sessionId` it sends no request
and changes no state. -/
theorem C12_startNewRound_keeps_session (st : AppState) (sid : String) (data : NewRoundData)
    (hsid : truthySession st.sessionId = some sid) :
    (startNewRound st (Reply.ok data)).1.sessionId = st.sessionId ∧
    (startNewRound st (Reply.ok data)).1.gameState = some data.game_state ∧
    (startNewRound st (Reply.ok data)).1.results = none ∧
    (startNewRound st (Reply.ok data)).2 = [Request.newRound sid] ∧
    (∀ (st0 : AppState) (reply : Reply NewRoundData), st0.sessionId = none →
      startNewRound st0 reply = (st0, [])) := by
  refine ⟨?_, ?_, ?_, ?_, ?_⟩
  · simp [startNewRound, hsid]
  · simp [startNewRound, hsid]
  · simp [startNewRound, hsid]
  · simp [startNewRound, hsid]
  · intro st0 reply h0
    simp [startNewRound, truthySession, h0]

theorem C12_startNewRound_keeps_session_witness :
    (startNewRound exAppState (Reply.ok exNewRoundData)).1.sessionId = exAppState.sessionId ∧
    (startNewRound exAppState (Reply.ok exNewRoundData)).1.gameState =
      some exNewRoundData.game_state ∧
    (startNewRound exAppState (Reply.ok exNewRoundData)).1.results = none ∧
    (startNewRound exAppState (Reply.ok exNewRoundData)).2 = [Request.newRound "s-1"] ∧
    (∀ (st0 : AppState) (reply : Reply NewRoundData), st0.sessionId = none →
      startNewRound st0 reply = (st0, [])) :=
  C12_startNewRound_keeps_session exAppState "s-1" exNewRoundData (by decide)

/-- C14: a successful `loadDefaultConfig` or `loadOptimizedConfig` sets the five
strategy hooks to the fields of the response and leaves `numHands`,
`startingBankroll`, `minBet`, `numDecks`, `penetration`, `results` and
`savedConfigs` unchanged; a failed one leaves the whole state unchanged. -/
theorem C14_load_config (st : StrategyState) (config : StrategyConfigData) :
    (∀ out ∈ [(StrategyTester.loadDefaultConfig st (Reply.ok config)).1,
        (StrategyTester.loadOptimizedConfig st (Reply.ok config)).1],
      (out.cardValues = config.card_values ∧ out.aceAdjustment = config.ace_adjustment ∧
        out.betThreshold = config.bet_threshold ∧ out.betIncrement = config.bet_increment ∧
        out.maxBetUnits = config.max_bet_units) ∧
      (out.numHands = st.numHands ∧ out.startingBankroll = st.startingBankroll ∧
        out.minBet = st.minBet ∧ out.numDecks = st.numDecks ∧
        out.penetration = st.penetration ∧ out.results = st.results ∧
        out.savedConfigs = st.savedConfigs)) ∧
    (StrategyTester.loadDefaultConfig st Reply.failed).1 = st ∧
    (StrategyTester.loadOptimizedConfig st Reply.failed).1 = st := by
  refine ⟨?_, rfl, rfl⟩
  intro out hout
  simp only [List.mem_cons, List.mem_singleton, List.not_mem_nil, or_false] at hout
  rcases hout with h | h <;> subst h <;>
    simp [StrategyTester.loadDefaultConfig, StrategyTester.loadOptimizedConfig]

theorem playScreen_players_getElem? (upper : String → String) (st : AppState)
    (gameState : GameState) (i : Nat) :
    (App.playScreen upper st gameState).players[i]? =
      (gameState.player_hands[i]?).map fun hand =>
        Hand hand false false
          (isPlayerTurn gameState && decide (Int.ofNat i = gameState.current_hand_index)) := by
  simp only [App.playScreen, List.getElem?_map, List.getElem?_enum]
  cases gameState.player_hands[i]? <;> simp

/-- C15: every player hand is rendered, and the hand at index `i` is rendered
active iff the state is `player_turn` and `i` equals `current_hand_index`; so
two active hands have the same index and no hand is active outside
`player_turn`. -/
theorem C15_active_hand (upper : String → String) (st : AppState) (gameState : GameState) :
    (App.playScreen upper st gameState).players.length = gameState.player_hands.length ∧
    (∀ (i : Nat) (v : HandView), (App.playScreen upper st gameState).players[i]? = some v →
      (v.ring = true ↔
        gameState.state = "player_turn" ∧ Int.ofNat i = gameState.current_hand_index)) ∧
    (∀ (i j : Nat) (v w : HandView), (App.playScreen upper st gameState).players[i]? = some v →
      (App.playScreen upper st gameState).players[j]? = some w →
      v.ring = true → w.ring = true → i = j) ∧
    (gameState.state ≠ "player_turn" →
      ∀ (i : Nat) (v : HandView),
        (App.playScreen upper st gameState).players[i]? = some v → v.ring = false) := by
  have hring : ∀ (i : Nat) (v : HandView),
      (App.playScreen upper st gameState).players[i]? = some v →
      (v.ring = true ↔
        gameState.state = "player_turn" ∧ Int.ofNat i = gameState.current_hand_index) := by
    intro i v hv
    rw [playScreen_players_getElem?] at hv
    cases hh : gameState.player_hands[i]? with
    | none => simp [hh] at hv
    | some hand =>
      simp only [hh, Option.map_some', Option.some.injEq] at hv
      subst hv
      simp [Hand, isPlayerTurn]
  refine ⟨by simp [App.playScreen], hring, ?_, ?_⟩
  · intro i j v w hv hw hvr hwr
    have h1 := ((hring i v hv).1 hvr).2
    have h2 := ((hring j w hw).1 hwr).2
    have : Int.ofNat i = Int.ofNat j := h1.trans h2.symm
    exact Int.ofNat.inj this
  · intro hne i v hv
    cases hr : v.ring with
    | false => rfl
    | true => exact absurd ((hring i v hv).1 hr).1 hne

/-- C16: with a truthy session id and a successful bet response `r`, `placeBet`
sets `gameState` to `r` and `results` to null and its only request is the bet,
whatever `r.state` is; in particular, from the initial state a new game and a
bet answered with `round_over` lead to `gameState.state = 'round_over'` with
`results` null, where the play screen has no results block. -/
theorem C16_placeBet_no_results_query (upper : String → String) (st : AppState)
    (sid : String) (r : GameState) (hsid : truthySession st.sessionId = some sid) :
    (placeBet st (Reply.ok r)).1.gameState = some r ∧
    (placeBet st (Reply.ok r)).1.results = none ∧
    (placeBet st (Reply.ok r)).2 = [Request.bet sid st.betAmount] ∧
    (∀ sid0, Request.results sid0 ∉ (placeBet st (Reply.ok r)).2) ∧
    ((placeBet (startNewGame AppState.initial (Reply.ok exNewGameData)).1
        (Reply.ok exNaturalRoundOver)).1.gameState = some exNaturalRoundOver ∧
      exNaturalRoundOver.state = "round_over" ∧
      (placeBet (startNewGame AppState.initial (Reply.ok exNewGameData)).1
        (Reply.ok exNaturalRoundOver)).1.results = none ∧
      (App.playScreen upper
        (placeBet (startNewGame AppState.initial (Reply.ok exNewGameData)).1
          (Reply.ok exNaturalRoundOver)).1 exNaturalRoundOver).results = none) := by
  refine ⟨?_, ?_, ?_, ?_, ?_⟩
  · simp [placeBet, hsid]
  · simp [placeBet, hsid]
  · simp [placeBet, hsid]
  · intro sid0
    simp [placeBet, hsid]
  · refine ⟨rfl, rfl, rfl, rfl⟩

theorem C16_placeBet_no_results_query_witness :
    (placeBet exAppState (Reply.ok exNaturalRoundOver)).1.gameState = some exNaturalRoundOver ∧
    (placeBet exAppState (Reply.ok exNaturalRoundOver)).1.results = none ∧
    (placeBet exAppState (Reply.ok exNaturalRoundOver)).2 =
      [Request.bet "s-1" exAppState.betAmount] ∧
    (∀ sid0, Request.results sid0 ∉ (placeBet exAppState (Reply.ok exNaturalRoundOver)).2) ∧
    ((placeBet (startNewGame AppState.initial (Reply.ok exNewGameData)).1
        (Reply.ok exNaturalRoundOver)).1.gameState = some exNaturalRoundOver ∧
      exNaturalRoundOver.state = "round_over" ∧
      (placeBet (startNewGame AppState.initial (Reply.ok exNewGameData)).1
        (Reply.ok exNaturalRoundOver)).1.results = none ∧
      (App.playScreen upperAscii
        (placeBet (startNewGame AppState.initial (Reply.ok exNewGameData)).1
          (Reply.ok exNaturalRoundOver)).1 exNaturalRoundOver).results = none) :=
  C16_placeBet_no_results_query upperAscii exAppState "s-1" exNaturalRoundOver (by decide)

theorem hideFirstCard_iff (gameState : GameState) :
    App.hideFirstCard gameState = true ↔
      gameState.state ≠ "dealer_turn" ∧ gameState.state ≠ "round_over" := by
  simp [App.hideFirstCard, isRoundOver, isDealerTurn, and_comm]

theorem Hand_concealed_eq (h1 h2 : HandData) (isActive : Bool)
    (hlen : h1.cards.length = h2.cards.length)
    (hrest : ∀ i : Nat, 0 < i → h1.cards[i]? = h2.cards[i]?) :
    Hand h1 true true isActive = Hand h2 true true isActive := by
  have hcards : (Hand.cardProps h1 true true).map (fun p => Card p.1 p.2) =
      (Hand.cardProps h2 true true).map (fun p => Card p.1 p.2) := by
    cases hc1 : h1.cards with
    | nil =>
      have : h2.cards = [] := by
        apply List.eq_nil_of_length_eq_zero
        rw [← hlen, hc1]
        rfl
      simp [Hand.cardProps, hc1, this]
    | cons c1 t1 =>
      cases hc2 : h2.cards with
      | nil => simp [hc1, hc2] at hlen
      | cons c2 t2 =>
        have htail : t1 = t2 := by
          apply List.ext_getElem?
          intro i
          have := hrest (i + 1) (Nat.succ_pos i)
          simpa [hc1, hc2] using this
        subst htail
        simp [Hand.cardProps, hc1, hc2, List.enum, List.enumFrom, Card]
  simp only [Hand, hcards]
  simp

/-- C17: App passes `hideFirstCard = true` exactly when the state is neither
`dealer_turn` nor `round_over`; then two dealer hands with the same number of
cards that agree on every card except the one at index 0 are rendered
identically, whatever their `value`, `is_soft`, `is_blackjack` and `is_bust`,
and no `Value` line is rendered. -/
theorem C17_concealed_dealer_hand (g1 g2 : GameState)
    (hhide1 : App.hideFirstCard g1 = true) (hhide2 : App.hideFirstCard g2 = true)
    (hlen : g1.dealer_hand.cards.length = g2.dealer_hand.cards.length)
    (hrest : ∀ i : Nat, 0 < i → g1.dealer_hand.cards[i]? = g2.dealer_hand.cards[i]?) :
    App.dealerHand g1 = App.dealerHand g2 ∧
    (App.dealerHand g1).valueLine = none ∧
    (∀ isActive : Bool,
      Hand g1.dealer_hand true true isActive = Hand g2.dealer_hand true true isActive) ∧
    (∀ g : GameState, App.hideFirstCard g = true ↔
      g.state ≠ "dealer_turn" ∧ g.state ≠ "round_over") := by
  refine ⟨?_, ?_, ?_, hideFirstCard_iff⟩
  · simp only [App.dealerHand, hhide1, hhide2]
    exact Hand_concealed_eq _ _ _ hlen hrest
  · simp [App.dealerHand, hhide1, Hand]
  · intro isActive
    exact Hand_concealed_eq _ _ _ hlen hrest

theorem C17_concealed_dealer_hand_witness :
    App.dealerHand exPlayerTurn = App.dealerHand exPlayerTurnOther ∧
    (App.dealerHand exPlayerTurn).valueLine = none ∧
    (∀ isActive : Bool,
      Hand exPlayerTurn.dealer_hand true true isActive =
        Hand exOtherDealerHand true true isActive) ∧
    (∀ g : GameState, App.hideFirstCard g = true ↔
      g.state ≠ "dealer_turn" ∧ g.state ≠ "round_over") :=
  C17_concealed_dealer_hand exPlayerTurn exPlayerTurnOther
    (by decide) (by decide) (by decide)
    (by
      intro i hi
      cases i with
      | zero => exact absurd hi (by decide)
      | succ j => rfl)

/-- C18: the play screen renders the bet form iff the state is `betting`, the
action buttons iff it is `player_turn` and the New Round button iff it is
`round_over`; no two of the three are rendered together, and none is rendered
in `dealer_turn` or in any state other than those three. -/
theorem C18_control_groups (upper : String → String) (st : AppState) (gameState : GameState) :
    (((App.playScreen upper st gameState).betForm.isSome = true ↔
        gameState.state = "betting") ∧
      ((App.playScreen upper st gameState).actions.isSome = true ↔
        gameState.state = "player_turn") ∧
      ((App.playScreen upper st gameState).newRound.isSome = true ↔
        gameState.state = "round_over")) ∧
    (¬ ((App.playScreen upper st gameState).betForm.isSome = true ∧
        (App.playScreen upper st gameState).actions.isSome = true) ∧
      ¬ ((App.playScreen upper st gameState).betForm.isSome = true ∧
        (App.playScreen upper st gameState).newRound.isSome = true) ∧
      ¬ ((App.playScreen upper st gameState).actions.isSome = true ∧
        (App.playScreen upper st gameState).newRound.isSome = true)) ∧
    (gameState.state ≠ "betting" → gameState.state ≠ "player_turn" →
      gameState.state ≠ "round_over" →
      (App.playScreen upper st gameState).betForm = none ∧
      (App.playScreen upper st gameState).actions = none ∧
      (App.playScreen upper st gameState).newRound = none) ∧
    (gameState.state = "dealer_turn" →
      (App.playScreen upper st gameState).betForm = none ∧
      (App.playScreen upper st gameState).actions = none ∧
      (App.playScreen upper st gameState).newRound = none) := by
  have hbet : (App.playScreen upper st gameState).betForm.isSome = true ↔
      gameState.state = "betting" := by
    by_cases h : gameState.state = "betting" <;> simp [App.playScreen, isBetting, h]
  have hact : (App.playScreen upper st gameState).actions.isSome = true ↔
      gameState.state = "player_turn" := by
    by_cases h : gameState.state = "player_turn" <;> simp [App.playScreen, isPlayerTurn, h]
  have hnew : (App.playScreen upper st gameState).newRound.isSome = true ↔
      gameState.state = "round_over" := by
    by_cases h : gameState.state = "round_over" <;> simp [App.playScreen, isRoundOver, h]
  have hnone : gameState.state ≠ "betting" → gameState.state ≠ "player_turn" →
      gameState.state ≠ "round_over" →
      (App.playScreen upper st gameState).betForm = none ∧
      (App.playScreen upper st gameState).actions = none ∧
      (App.playScreen upper st gameState).newRound = none := by
    intro h1 h2 h3
    simp [App.playScreen, isBetting, isPlayerTurn, isRoundOver, h1, h2, h3]
  refine ⟨⟨hbet, hact, hnew⟩, ⟨?_, ?_, ?_⟩, hnone, ?_⟩
  · rintro ⟨h1, h2⟩
    have e1 := hbet.1 h1
    have e2 := hact.1 h2
    rw [e1] at e2
    exact absurd e2 (by decide)
  · rintro ⟨h1, h2⟩
    have e1 := hbet.1 h1
    have e2 := hnew.1 h2
    rw [e1] at e2
    exact absurd e2 (by decide)
  · rintro ⟨h1, h2⟩
    have e1 := hact.1 h1
    have e2 := hnew.1 h2
    rw [e1] at e2
    exact absurd e2 (by decide)
  · intro h
    apply hnone <;> rw [h] <;> decide

theorem afterCall_invariant (st : SimulationPanelState) (call : SimulationCall)
    (hinv : ¬ (st.simulationResults.isSome = true ∧ st.comparisonResults.isSome = true)) :
    ¬ ((SimulationPanel.afterCall st call).simulationResults.isSome = true ∧
        (SimulationPanel.afterCall st call).comparisonResults.isSome = true) ∧
    (SimulationPanel.afterCall st call).loading = false := by
  cases call with
  | runSimulation reply =>
    cases reply with
    | ok data => simp [SimulationPanel.afterCall, SimulationPanel.runSimulation]
    | failed =>
      refine ⟨?_, by simp [SimulationPanel.afterCall, SimulationPanel.runSimulation]⟩
      simpa [SimulationPanel.afterCall, SimulationPanel.runSimulation] using hinv
  | compareStrategies reply =>
    cases reply with
    | ok data => simp [SimulationPanel.afterCall, SimulationPanel.compareStrategies]
    | failed =>
      refine ⟨?_, by simp [SimulationPanel.afterCall, SimulationPanel.compareStrategies]⟩
      simpa [SimulationPanel.afterCall, SimulationPanel.compareStrategies] using hinv

theorem foldl_afterCall_invariant (calls : List SimulationCall) :
    ∀ st : SimulationPanelState,
      ¬ (st.simulationResults.isSome = true ∧ st.comparisonResults.isSome = true) →
      st.loading = false →
      ¬ ((calls.foldl SimulationPanel.afterCall st).simulationResults.isSome = true ∧
          (calls.foldl SimulationPanel.afterCall st).comparisonResults.isSome = true) ∧
      (calls.foldl SimulationPanel.afterCall st).loading = false := by
  induction calls with
  | nil =>
    intro st hinv hload
    exact ⟨hinv, hload⟩
  | cons call rest ih =>
    intro st hinv _
    obtain ⟨h1, h2⟩ := afterCall_invariant st call hinv
    exact ih (SimulationPanel.afterCall st call) h1 h2

/-- C20: in every state reached from the initial one by `runSimulation` and
`compareStrategies` calls, each succeeding or failing, `simulationResults` and
`comparisonResults` are not both non-null and `loading` is false; the same
holds after one more call of either handler. -/
theorem C20_results_exclusive (calls : List SimulationCall) :
    ¬ ((SimulationPanel.afterCalls calls).simulationResults.isSome = true ∧
        (SimulationPanel.afterCalls calls).comparisonResults.isSome = true) ∧
    (SimulationPanel.afterCalls calls).loading = false ∧
    (∀ call : SimulationCall,
      ¬ ((SimulationPanel.afterCall (SimulationPanel.afterCalls calls) call).simulationResults.isSome
            = true ∧
          (SimulationPanel.afterCall (SimulationPanel.afterCalls calls) call).comparisonResults.isSome
            = true) ∧
      (SimulationPanel.afterCall (SimulationPanel.afterCalls calls) call).loading = false) := by
  have h := foldl_afterCall_invariant calls SimulationPanelState.initial
    (by simp [SimulationPanelState.initial]) rfl
  exact ⟨h.1, h.2, fun call => afterCall_invariant _ call h.1⟩

theorem NumObject.mem_keys_set (m : NumObject) (k k' : String) (v : JsNum) :
    k' ∈ NumObject.keys (NumObject.set m k v) ↔ k' = k ∨ k' ∈ NumObject.keys m := by
  induction m with
  | nil => simp [NumObject.set, NumObject.keys]
  | cons p rest ih =>
    obtain ⟨k0, v0⟩ := p
    have ih' : k' ∈ List.map Prod.fst (NumObject.set rest k v) ↔
        k' = k ∨ k' ∈ List.map Prod.fst rest := ih
    by_cases h : k0 = k
    · subst h
      simp [NumObject.set, NumObject.keys]
    · simp only [NumObject.set, NumObject.keys, h, if_false, List.map_cons, List.mem_cons, ih']
      tauto

theorem NumObject.set_of_not_mem (m : NumObject) (k : String) (v : JsNum)
    (h : k ∉ NumObject.keys m) : NumObject.set m k v = m ++ [(k, v)] := by
  induction m with
  | nil => rfl
  | cons p rest ih =>
    obtain ⟨k0, v0⟩ := p
    simp only [NumObject.keys, List.map_cons, List.mem_cons, not_or] at h
    have hne : ¬ k0 = k := fun e => h.1 e.symm
    have ih' := ih h.2
    simp [NumObject.set, hne, ih']

theorem NumObject.nodup_keys_set (m : NumObject) (k : String) (v : JsNum)
    (h : (NumObject.keys m).Nodup) : (NumObject.keys (NumObject.set m k v)).Nodup := by
  induction m with
  | nil => simp [NumObject.set, NumObject.keys]
  | cons p rest ih =>
    obtain ⟨k0, v0⟩ := p
    simp only [NumObject.keys, List.map_cons, List.nodup_cons] at h
    by_cases hk : k0 = k
    · subst hk
      simpa [NumObject.set, NumObject.keys] using h
    · have hmem : k0 ∉ NumObject.keys (NumObject.set rest k v) := by
        rw [NumObject.mem_keys_set]
        rintro (e | e)
        · exact hk e
        · exact h.1 e
      have ih' := ih h.2
      simp only [NumObject.set, hk, if_false, NumObject.keys, List.map_cons, List.nodup_cons]
      exact ⟨hmem, ih'⟩

theorem apiCardValues_foldl_keys (upper : String → String) (m : NumObject) :
    ∀ (acc : NumObject) (k' : String),
      k' ∈ NumObject.keys
          (m.foldl (fun acc entry => NumObject.set acc (upper entry.1) entry.2) acc) ↔
        k' ∈ NumObject.keys acc ∨ ∃ k ∈ NumObject.keys m, upper k = k' := by
  induction m with
  | nil => simp [NumObject.keys]
  | cons p rest ih =>
    intro acc k'
    simp only [List.foldl_cons]
    rw [ih, NumObject.mem_keys_set]
    simp only [NumObject.keys, List.map_cons, List.mem_cons, exists_eq_or_imp]
    constructor
    · rintro ((h | h) | h)
      · exact Or.inr (Or.inl h.symm)
      · exact Or.inl h
      · exact Or.inr (Or.inr h)
    · rintro (h | h | h)
      · exact Or.inl (Or.inr h)
      · exact Or.inl (Or.inl h.symm)
      · exact Or.inr h

theorem apiCardValues_foldl_nodup (upper : String → String) (m : NumObject) :
    ∀ acc : NumObject, (NumObject.keys acc).Nodup →
      (NumObject.keys
        (m.foldl (fun acc entry => NumObject.set acc (upper entry.1) entry.2) acc)).Nodup := by
  induction m with
  | nil => intro acc h; exact h
  | cons p rest ih =>
    intro acc h
    exact ih _ (NumObject.nodup_keys_set acc _ _ h)

theorem apiCardValues_foldl_get (upper : String → String) (m : NumObject) :
    ∀ (acc : NumObject) (k' : String) (v : JsNum),
      NumObject.get (m.foldl (fun acc entry => NumObject.set acc (upper entry.1) entry.2) acc)
          k' = some v →
        NumObject.get acc k' = some v ∨ ∃ k, (k, v) ∈ m ∧ upper k = k' := by
  induction m with
  | nil =>
    intro acc k' v h
    exact Or.inl h
  | cons p rest ih =>
    intro acc k' v h
    obtain ⟨k0, v0⟩ := p
    simp only [List.foldl_cons] at h
    rcases ih _ _ _ h with h1 | ⟨k, hk, hu⟩
    · by_cases hkk : k' = upper k0
      · subst hkk
        rw [NumObject.get_set_self] at h1
        simp only [Option.some.injEq] at h1
        subst h1
        exact Or.inr ⟨k0, List.mem_cons_self _ _, rfl⟩
      · rw [NumObject.get_set_other _ _ _ _ hkk] at h1
        exact Or.inl h1
    · exact Or.inr ⟨k, List.mem_cons_of_mem _ hk, hu⟩

theorem apiCardValues_foldl_fixed (upper : String → String) (m : NumObject) :
    ∀ acc : NumObject, (NumObject.keys m).Nodup →
      (∀ k ∈ NumObject.keys m, upper k = k) →
      (∀ k ∈ NumObject.keys m, k ∉ NumObject.keys acc) →
      m.foldl (fun acc entry => NumObject.set acc (upper entry.1) entry.2) acc = acc ++ m := by
  induction m with
  | nil => intro acc _ _ _; simp
  | cons p rest ih =>
    intro acc hnd hfix hdisj
    obtain ⟨k0, v0⟩ := p
    simp only [NumObject.keys, List.map_cons, List.nodup_cons] at hnd
    have hk0 : upper k0 = k0 := hfix k0 (by simp [NumObject.keys])
    have hnot : k0 ∉ NumObject.keys acc := hdisj k0 (by simp [NumObject.keys])
    simp only [List.foldl_cons, hk0]
    rw [NumObject.set_of_not_mem acc k0 v0 hnot]
    rw [ih (acc ++ [(k0, v0)]) hnd.2]
    · simp
    · intro k hk
      exact hfix k (by simp only [NumObject.keys, List.map_cons, List.mem_cons]; exact Or.inr hk)
    · intro k hk
      simp only [NumObject.keys, List.map_append, List.map_cons, List.map_nil, List.mem_append,
        List.mem_singleton, not_or]
      refine ⟨?_, ?_⟩
      · exact hdisj k (by simp only [NumObject.keys, List.map_cons, List.mem_cons]; exact Or.inr hk)
      · intro e
        subst e
        exact hnd.1 hk

/-- C13: the object sent as `card_values` has exactly the upper-cased keys of
the card-value map, each once, and the value under each key is the value of an
entry of the map whose key upper-cases to it; when the keys of the map are rank
labels of the form (which upper-casing leaves as they are) the object sent is
the map itself, and converting it again changes nothing. -/
theorem C13_api_card_values (upper : String → String) (st : StrategyState)
    (hupper : ∀ k ∈ StrategyTester.rankLabels, upper k = k) :
    Body.get (StrategyTester.runSimulationBody upper st) "card_values" =
      some (BodyValue.numObject (StrategyTester.apiCardValues upper st.cardValues)) ∧
    (∀ k', k' ∈ NumObject.keys (StrategyTester.apiCardValues upper st.cardValues) ↔
      ∃ k ∈ NumObject.keys st.cardValues, upper k = k') ∧
    (NumObject.keys (StrategyTester.apiCardValues upper st.cardValues)).Nodup ∧
    (∀ k' v, NumObject.get (StrategyTester.apiCardValues upper st.cardValues) k' = some v →
      ∃ k, (k, v) ∈ st.cardValues ∧ upper k = k') ∧
    ((NumObject.keys st.cardValues).Nodup →
      (∀ k ∈ NumObject.keys st.cardValues, k ∈ StrategyTester.rankLabels) →
      StrategyTester.apiCardValues upper st.cardValues = st.cardValues ∧
      StrategyTester.apiCardValues upper
          (StrategyTester.apiCardValues upper st.cardValues) =
        StrategyTester.apiCardValues upper st.cardValues) := by
  refine ⟨by simp [Body.get, StrategyTester.runSimulationBody], ?_, ?_, ?_, ?_⟩
  · intro k'
    have := apiCardValues_foldl_keys upper st.cardValues [] k'
    simpa [StrategyTester.apiCardValues, NumObject.keys] using this
  · exact apiCardValues_foldl_nodup upper st.cardValues [] (by simp [NumObject.keys])
  · intro k' v h
    rcases apiCardValues_foldl_get upper st.cardValues [] k' v h with h1 | h1
    · simp [NumObject.get] at h1
    · exact h1
  · intro hnd hrank
    have hid : StrategyTester.apiCardValues upper st.cardValues = st.cardValues := by
      have := apiCardValues_foldl_fixed upper st.cardValues [] hnd
        (fun k hk => hupper k (hrank k hk)) (by simp [NumObject.keys])
      simpa [StrategyTester.apiCardValues] using this
    exact ⟨hid, by rw [hid, hid]⟩

theorem upperAscii_rankLabels : ∀ k ∈ StrategyTester.rankLabels, upperAscii k = k := by
  decide

theorem C13_api_card_values_witness :
    Body.get (StrategyTester.runSimulationBody upperAscii
        (StrategyTester.loadDefaultConfig StrategyState.initial (Reply.ok exConfigData)).1)
        "card_values" =
      some (BodyValue.numObject (StrategyTester.apiCardValues upperAscii exCardValues)) ∧
    (∀ k', k' ∈ NumObject.keys (StrategyTester.apiCardValues upperAscii exCardValues) ↔
      ∃ k ∈ NumObject.keys exCardValues, upperAscii k = k') ∧
    (NumObject.keys (StrategyTester.apiCardValues upperAscii exCardValues)).Nodup ∧
    (∀ k' v, NumObject.get (StrategyTester.apiCardValues upperAscii exCardValues) k' = some v →
      ∃ k, (k, v) ∈ exCardValues ∧ upperAscii k = k') ∧
    ((NumObject.keys exCardValues).Nodup →
      (∀ k ∈ NumObject.keys exCardValues, k ∈ StrategyTester.rankLabels) →
      StrategyTester.apiCardValues upperAscii exCardValues = exCardValues ∧
      StrategyTester.apiCardValues upperAscii
          (StrategyTester.apiCardValues upperAscii exCardValues) =
        StrategyTester.apiCardValues upperAscii exCardValues) :=
  C13_api_card_values upperAscii
    (StrategyTester.loadDefaultConfig StrategyState.initial (Reply.ok exConfigData)).1
    upperAscii_rankLabels

theorem parseInt_outcome_keys :
    parseInt "17" = JsNum.num 17 ∧ parseInt "18" = JsNum.num 18 ∧ parseInt "19" = JsNum.num 19 ∧
    parseInt "20" = JsNum.num 20 ∧ parseInt "21" = JsNum.num 21 :=
  ⟨rfl, rfl, rfl, rfl, rfl⟩

theorem outcomeRank_keys :
    StatisticsOverlay.outcomeRank "17" = 0 ∧ StatisticsOverlay.outcomeRank "18" = 1 ∧
    StatisticsOverlay.outcomeRank "19" = 2 ∧ StatisticsOverlay.outcomeRank "20" = 3 ∧
    StatisticsOverlay.outcomeRank "21" = 4 ∧ StatisticsOverlay.outcomeRank "bust" = 5 := by
  decide

theorem compareOutcomes_agrees (a b : String) (ha : a ∈ StatisticsOverlay.outcomeOrder)
    (hb : b ∈ StatisticsOverlay.outcomeOrder) (hne : a ≠ b) :
    ((StatisticsOverlay.compareOutcomes a b).isPositive = false ↔
      StatisticsOverlay.outcomeRank a ≤ StatisticsOverlay.outcomeRank b) := by
  obtain ⟨p17, p18, p19, p20, p21⟩ := parseInt_outcome_keys
  obtain ⟨r17, r18, r19, r20, r21, rb⟩ := outcomeRank_keys
  simp only [StatisticsOverlay.outcomeOrder, List.mem_cons, List.mem_singleton,
    List.not_mem_nil, or_false] at ha hb
  rcases ha with rfl | rfl | rfl | rfl | rfl | rfl <;>
    rcases hb with rfl | rfl | rfl | rfl | rfl | rfl <;>
    first
    | exact absurd rfl hne
    | (simp [StatisticsOverlay.compareOutcomes, p17, p18, p19, p20, p21, r17, r18, r19,
        r20, r21, rb, JsNum.sub, JsNum.isPositive]; done)
    | (simp [StatisticsOverlay.compareOutcomes, p17, p18, p19, p20, p21, r17, r18, r19,
        r20, r21, rb, JsNum.sub, JsNum.isPositive]
       norm_num)

theorem outcomeBefore_of_rank (a b : String) (ha : a ∈ StatisticsOverlay.outcomeOrder)
    (hb : b ∈ StatisticsOverlay.outcomeOrder) (hne : a ≠ b)
    (hle : StatisticsOverlay.outcomeRank a ≤ StatisticsOverlay.outcomeRank b) :
    StatisticsOverlay.outcomeBefore a b := by
  obtain ⟨p17, p18, p19, p20, p21⟩ := parseInt_outcome_keys
  obtain ⟨r17, r18, r19, r20, r21, rb⟩ := outcomeRank_keys
  simp only [StatisticsOverlay.outcomeOrder, List.mem_cons, List.mem_singleton,
    List.not_mem_nil, or_false] at ha hb
  rcases ha with rfl | rfl | rfl | rfl | rfl | rfl <;>
    rcases hb with rfl | rfl | rfl | rfl | rfl | rfl <;>
    first
    | exact absurd rfl hne
    | (simp only [r17, r18, r19, r20, r21, rb] at hle
       omega)
    | (simp [StatisticsOverlay.outcomeBefore, p17, p18, p19, p20, p21]; done)
    | (simp [StatisticsOverlay.outcomeBefore, p17, p18, p19, p20, p21]
       norm_num)

theorem orderedInsert_congr {α : Type} (r s : α → α → Prop) [DecidableRel r] [DecidableRel s]
    (a : α) (L : List α) (h : ∀ b ∈ L, (r a b ↔ s a b)) :
    L.orderedInsert r a = L.orderedInsert s a := by
  induction L with
  | nil => rfl
  | cons b L ih =>
    have hb := h b (List.mem_cons_self _ _)
    have ih' := ih fun c hc => h c (List.mem_cons_of_mem _ hc)
    by_cases hr : r a b
    · have hs : s a b := hb.1 hr
      simp [List.orderedInsert, hr, hs]
    · have hs : ¬ s a b := fun x => hr (hb.2 x)
      simp [List.orderedInsert, hr, hs, ih']

theorem insertionSort_congr {α : Type} (r s : α → α → Prop) [DecidableRel r] [DecidableRel s]
    (l : List α) (hnd : l.Nodup) (h : ∀ a ∈ l, ∀ b ∈ l, a ≠ b → (r a b ↔ s a b)) :
    l.insertionSort r = l.insertionSort s := by
  induction l with
  | nil => rfl
  | cons a l ih =>
    rw [List.nodup_cons] at hnd
    have ih' := ih hnd.2 fun x hx y hy hxy =>
      h x (List.mem_cons_of_mem _ hx) y (List.mem_cons_of_mem _ hy) hxy
    simp only [List.insertionSort, ih']
    apply orderedInsert_congr
    intro b hb
    have hbl : b ∈ l := (List.mem_insertionSort s).1 hb
    have hab : a ≠ b := fun e => hnd.1 (e ▸ hbl)
    exact h a (List.mem_cons_self _ _) b (List.mem_cons_of_mem _ hbl) hab

theorem outcomeRank_lt_of_le (a b : String) (ha : a ∈ StatisticsOverlay.outcomeOrder)
    (hb : b ∈ StatisticsOverlay.outcomeOrder) (hne : a ≠ b)
    (hle : StatisticsOverlay.outcomeRank a ≤ StatisticsOverlay.outcomeRank b) :
    StatisticsOverlay.outcomeRank a < StatisticsOverlay.outcomeRank b := by
  rcases Nat.lt_or_ge (StatisticsOverlay.outcomeRank a) (StatisticsOverlay.outcomeRank b)
    with h | h
  · exact h
  · have heq : StatisticsOverlay.outcomeRank a = StatisticsOverlay.outcomeRank b :=
      Nat.le_antisymm hle h
    exact absurd ((List.indexOf_inj ha hb).1 heq) hne

/-- C19: for a distribution with distinct keys among 17, 18, 19, 20, 21 and
bust, the entries displayed are a rearrangement of the entries whose probability
is above 0.05, without repetition, each key before every key that follows it in
ascending numeric order with bust last; their keys are the keys of that order
that have such an entry. -/
theorem C19_dealer_outcomes (fvp : List (String × ℚ))
    (hkeys : ∀ e ∈ fvp, e.1 ∈ StatisticsOverlay.outcomeOrder)
    (hnodup : (fvp.map Prod.fst).Nodup) :
    (StatisticsOverlay.dealerOutcomes fvp).Perm (fvp.filter fun e => decide (e.2 > 0.05)) ∧
    (∀ e, e ∈ StatisticsOverlay.dealerOutcomes fvp ↔ e ∈ fvp ∧ e.2 > 0.05) ∧
    (StatisticsOverlay.dealerOutcomes fvp).Nodup ∧
    (StatisticsOverlay.dealerOutcomes fvp).Pairwise
      (fun a b => StatisticsOverlay.outcomeBefore a.1 b.1) ∧
    (StatisticsOverlay.dealerOutcomes fvp).map Prod.fst = StatisticsOverlay.likelyKeys fvp ∧
    (StatisticsOverlay.dealerOutcomeCells fvp).map (fun cell => cell.key) =
      StatisticsOverlay.likelyKeys fvp := by
  have hFsub : (fvp.filter fun e => decide (e.2 > 0.05)).Sublist fvp := List.filter_sublist _
  have hFmem : ∀ e, e ∈ (fvp.filter fun e => decide (e.2 > 0.05)) ↔ e ∈ fvp ∧ e.2 > 0.05 := by
    intro e
    simp [List.mem_filter]
  have hFkeys : ((fvp.filter fun e => decide (e.2 > 0.05)).map Prod.fst).Nodup :=
    hnodup.sublist (hFsub.map Prod.fst)
  have hFnd : (fvp.filter fun e => decide (e.2 > 0.05)).Nodup := List.Nodup.of_map _ hFkeys
  have hD : StatisticsOverlay.dealerOutcomes fvp =
      (fvp.filter fun e => decide (e.2 > 0.05)).insertionSort StatisticsOverlay.outcomeLe := by
    unfold StatisticsOverlay.dealerOutcomes sortWith
    apply insertionSort_congr _ _ _ hFnd
    intro a ha b hb hab
    have hk : a.1 ≠ b.1 := fun e => hab (List.inj_on_of_nodup_map hFkeys ha hb e)
    exact compareOutcomes_agrees a.1 b.1 (hkeys a ((hFmem a).1 ha).1)
      (hkeys b ((hFmem b).1 hb).1) hk
  have hperm : (StatisticsOverlay.dealerOutcomes fvp).Perm
      (fvp.filter fun e => decide (e.2 > 0.05)) := by
    rw [hD]
    exact List.perm_insertionSort _ _
  have hmem : ∀ e, e ∈ StatisticsOverlay.dealerOutcomes fvp ↔ e ∈ fvp ∧ e.2 > 0.05 :=
    fun e => (hperm.mem_iff).trans (hFmem e)
  have hDnd : (StatisticsOverlay.dealerOutcomes fvp).Nodup := hperm.nodup_iff.2 hFnd
  have hKnd : ((StatisticsOverlay.dealerOutcomes fvp).map Prod.fst).Nodup :=
    (hperm.map Prod.fst).nodup_iff.2 hFkeys
  haveI : IsTotal (String × ℚ) StatisticsOverlay.outcomeLe :=
    ⟨fun a b => Nat.le_total _ _⟩
  haveI : IsTrans (String × ℚ) StatisticsOverlay.outcomeLe :=
    ⟨fun a b c hab hbc => Nat.le_trans hab hbc⟩
  have hsorted : (StatisticsOverlay.dealerOutcomes fvp).Pairwise StatisticsOverlay.outcomeLe := by
    rw [hD]
    exact List.sorted_insertionSort _ _
  have hkne : (StatisticsOverlay.dealerOutcomes fvp).Pairwise (fun a b => a.1 ≠ b.1) :=
    List.pairwise_map.1 hKnd
  have hlt : (StatisticsOverlay.dealerOutcomes fvp).Pairwise
      (fun a b => StatisticsOverlay.outcomeRank a.1 < StatisticsOverlay.outcomeRank b.1) := by
    refine (hsorted.and hkne).imp_of_mem ?_
    intro a b ha hb hab
    exact outcomeRank_lt_of_le a.1 b.1 (hkeys a ((hmem a).1 ha).1) (hkeys b ((hmem b).1 hb).1)
      hab.2 hab.1
  have hbefore : (StatisticsOverlay.dealerOutcomes fvp).Pairwise
      (fun a b => StatisticsOverlay.outcomeBefore a.1 b.1) := by
    refine (hsorted.and hkne).imp_of_mem ?_
    intro a b ha hb hab
    exact outcomeBefore_of_rank a.1 b.1 (hkeys a ((hmem a).1 ha).1) (hkeys b ((hmem b).1 hb).1)
      hab.2 hab.1
  have hKeq : (StatisticsOverlay.dealerOutcomes fvp).map Prod.fst =
      StatisticsOverlay.likelyKeys fvp := by
    haveI : IsAntisymm String
        (fun a b => StatisticsOverlay.outcomeRank a < StatisticsOverlay.outcomeRank b) :=
      ⟨fun a b h1 h2 => absurd h1 (Nat.lt_asymm h2)⟩
    have hLsorted : (StatisticsOverlay.likelyKeys fvp).Pairwise
        (fun a b => StatisticsOverlay.outcomeRank a < StatisticsOverlay.outcomeRank b) := by
      unfold StatisticsOverlay.likelyKeys
      apply List.Pairwise.filter
      decide
    have hLnd : (StatisticsOverlay.likelyKeys fvp).Nodup := by
      unfold StatisticsOverlay.likelyKeys
      apply List.Nodup.filter
      decide
    have hKsorted : ((StatisticsOverlay.dealerOutcomes fvp).map Prod.fst).Pairwise
        (fun a b => StatisticsOverlay.outcomeRank a < StatisticsOverlay.outcomeRank b) :=
      List.pairwise_map.2 hlt
    have hp : ((StatisticsOverlay.dealerOutcomes fvp).map Prod.fst).Perm
        (StatisticsOverlay.likelyKeys fvp) := by
      rw [List.perm_ext_iff_of_nodup hKnd hLnd]
      intro k
      simp only [List.mem_map, StatisticsOverlay.likelyKeys, List.mem_filter, List.any_eq_true,
        Bool.and_eq_true, beq_iff_eq, decide_eq_true_eq]
      constructor
      · rintro ⟨e, he, rfl⟩
        have := (hmem e).1 he
        exact ⟨hkeys e this.1, e, this.1, rfl, this.2⟩
      · rintro ⟨_, e, he, rfl, hp⟩
        exact ⟨e, (hmem e).2 ⟨he, hp⟩, rfl⟩
    exact List.eq_of_perm_of_sorted hp hKsorted hLsorted
  refine ⟨hperm, hmem, hDnd, hbefore, hKeq, ?_⟩
  rw [← hKeq]
  simp [StatisticsOverlay.dealerOutcomeCells, List.map_map, Function.comp_def]

theorem C19_dealer_outcomes_witness :
    (StatisticsOverlay.dealerOutcomes exFinalValues).Perm
      (exFinalValues.filter fun e => decide (e.2 > 0.05)) ∧
    (∀ e, e ∈ StatisticsOverlay.dealerOutcomes exFinalValues ↔
      e ∈ exFinalValues ∧ e.2 > 0.05) ∧
    (StatisticsOverlay.dealerOutcomes exFinalValues).Nodup ∧
    (StatisticsOverlay.dealerOutcomes exFinalValues).Pairwise
      (fun a b => StatisticsOverlay.outcomeBefore a.1 b.1) ∧
    (StatisticsOverlay.dealerOutcomes exFinalValues).map Prod.fst =
      StatisticsOverlay.likelyKeys exFinalValues ∧
    (StatisticsOverlay.dealerOutcomeCells exFinalValues).map (fun cell => cell.key) =
      StatisticsOverlay.likelyKeys exFinalValues :=
  C19_dealer_outcomes exFinalValues (by decide) (by decide)

theorem sum_map_set (f : EngineHand → Int) (l : List EngineHand) :
    ∀ (i : Nat) (a x : EngineHand), l[i]? = some a →
      ((l.set i x).map f).sum = (l.map f).sum - f a + f x := by
  induction l with
  | nil => intro i a x h; simp at h
  | cons b rest ih =>
    intro i a x h
    cases i with
    | zero =>
      simp only [List.getElem?_cons_zero, Option.some.injEq] at h
      subst h
      simp only [List.set_cons_zero, List.map_cons, List.sum_cons]
      omega
    | succ j =>
      simp only [List.getElem?_cons_succ] at h
      have := ih j a x h
      simp only [List.set_cons_succ, List.map_cons, List.sum_cons, this]
      omega

theorem sum_map_split (f : EngineHand → Int) (l : List EngineHand) :
    ∀ (i : Nat) (a x y : EngineHand), l[i]? = some a →
      ((l.take i ++ [x, y] ++ l.drop (i + 1)).map f).sum = (l.map f).sum - f a + f x + f y := by
  induction l with
  | nil => intro i a x y h; simp at h
  | cons b rest ih =>
    intro i a x y h
    cases i with
    | zero =>
      simp only [List.getElem?_cons_zero, Option.some.injEq] at h
      subst h
      simp only [List.take_zero, List.nil_append, List.drop_succ_cons, List.drop_zero,
        List.cons_append, List.map_cons, List.sum_cons]
      omega
    | succ j =>
      simp only [List.getElem?_cons_succ] at h
      have := ih j a x y h
      simp only [List.take_succ_cons, List.drop_succ_cons, List.cons_append, List.map_cons,
        List.sum_cons] at this ⊢
      omega

theorem foldl_add_payout (g : EngineHand → Int) (hands : List EngineHand) :
    ∀ b : Int, hands.foldl (fun b h => b + g h) b = b + (hands.map g).sum := by
  induction hands with
  | nil => intro b; simp
  | cons h rest ih =>
    intro b
    simp only [List.foldl_cons, List.map_cons, List.sum_cons, ih]
    omega

theorem net_eq_payout_sub (rules : TableRules) (s : Settlement) (wager : Int) :
    s.net rules wager = s.payout rules wager - wager := by
  cases s <;> simp only [Settlement.net, Settlement.payout] <;> omega

theorem sum_nets_eq (rules : TableRules) (dealer : List Rank) (hands : List EngineHand) :
    (hands.map fun h => (settlementOf dealer h).net rules h.wager).sum =
      (hands.map fun h => (settlementOf dealer h).payout rules h.wager).sum -
        (hands.map fun h => h.wager).sum := by
  induction hands with
  | nil => simp
  | cons h rest ih =>
    simp only [List.map_cons, List.sum_cons]
    rw [ih, net_eq_payout_sub]
    omega

theorem conserves_of_playing (rules : TableRules) (b0 : Int) (e : Engine)
    (hstate : e.state = RoundState.playerTurn ∨ e.state = RoundState.dealerTurn)
    (h : e.bankroll + e.stake = b0) : e.Conserves rules b0 := by
  rcases hstate with hs | hs <;> simp [Engine.Conserves, hs, h]

theorem playing_of_conserves (rules : TableRules) (b0 : Int) (e : Engine)
    (hstate : e.state = RoundState.playerTurn ∨ e.state = RoundState.dealerTurn)
    (h : e.Conserves rules b0) : e.bankroll + e.stake = b0 := by
  rcases hstate with hs | hs <;> simpa [Engine.Conserves, hs] using h

theorem advance_conserves (rules : TableRules) (b0 : Int) (e : Engine)
    (hstate : e.state = RoundState.playerTurn) (h : e.bankroll + e.stake = b0) :
    e.advance.Conserves rules b0 := by
  unfold Engine.advance
  split
  · exact conserves_of_playing rules b0 _ (Or.inl hstate) h
  · exact conserves_of_playing rules b0 _ (Or.inr rfl) h

theorem placeBet_conserves (rules : TableRules) (b0 : Int) (e e1 : Engine) (amount : Int)
    (p1 d1 p2 d2 : Rank) (h : e.Conserves rules b0)
    (hok : e.placeBet rules amount p1 d1 p2 d2 = Except.ok e1) : e1.Conserves rules b0 := by
  unfold Engine.placeBet at hok
  split_ifs at hok with hs hb hn
  · have hstate : e.state = RoundState.betting := by simpa using hs
    have hb0 : e.bankroll = b0 := by simpa [Engine.Conserves, hstate] using h
    simp only [Except.ok.injEq] at hok
    subst hok
    apply conserves_of_playing rules b0 _ (Or.inr rfl)
    simp [Engine.stake, hb0]
  · have hstate : e.state = RoundState.betting := by simpa using hs
    have hb0 : e.bankroll = b0 := by simpa [Engine.Conserves, hstate] using h
    simp only [Except.ok.injEq] at hok
    subst hok
    apply conserves_of_playing rules b0 _ (Or.inl rfl)
    simp [Engine.stake, hb0]

theorem hit_conserves (rules : TableRules) (b0 : Int) (e e1 : Engine) (card : Rank)
    (h : e.Conserves rules b0) (hok : e.hit card = Except.ok e1) : e1.Conserves rules b0 := by
  unfold Engine.hit at hok
  split_ifs at hok with hs
  have hstate : e.state = RoundState.playerTurn := by simpa using hs
  have hb := playing_of_conserves rules b0 e (Or.inl hstate) h
  split at hok
  · exact Except.noConfusion hok
  · rename_i hand hget
    split_ifs at hok with hc
    simp only [] at hok
    split_ifs at hok with hbust
    · simp only [Except.ok.injEq] at hok
      subst hok
      refine advance_conserves rules b0 _ (by simpa using hstate) ?_
      simp only [Engine.stake, sum_map_set (fun h => h.wager) e.hands _ hand _ hget]
      simp only [Engine.stake] at hb
      omega
    · simp only [Except.ok.injEq] at hok
      subst hok
      refine conserves_of_playing rules b0 _ (Or.inl (by simpa using hstate)) ?_
      simp only [Engine.stake, sum_map_set (fun h => h.wager) e.hands _ hand _ hget]
      simp only [Engine.stake] at hb
      omega

theorem stand_conserves (rules : TableRules) (b0 : Int) (e e1 : Engine)
    (h : e.Conserves rules b0) (hok : e.stand = Except.ok e1) : e1.Conserves rules b0 := by
  unfold Engine.stand at hok
  split_ifs at hok with hs
  have hstate : e.state = RoundState.playerTurn := by simpa using hs
  have hb := playing_of_conserves rules b0 e (Or.inl hstate) h
  split at hok
  · exact Except.noConfusion hok
  · simp only [Except.ok.injEq] at hok
    subst hok
    exact advance_conserves rules b0 _ hstate hb

theorem double_conserves (rules : TableRules) (b0 : Int) (e e1 : Engine) (card : Rank)
    (h : e.Conserves rules b0) (hok : e.double card = Except.ok e1) : e1.Conserves rules b0 := by
  unfold Engine.double at hok
  split_ifs at hok with hs
  have hstate : e.state = RoundState.playerTurn := by simpa using hs
  have hb := playing_of_conserves rules b0 e (Or.inl hstate) h
  split at hok
  · exact Except.noConfusion hok
  · rename_i hand hget
    split_ifs at hok with hc
    simp only [Except.ok.injEq] at hok
    subst hok
    refine advance_conserves rules b0 _ (by simpa using hstate) ?_
    simp only [Engine.stake, sum_map_set (fun h => h.wager) e.hands _ hand _ hget]
    simp only [Engine.stake] at hb
    omega

theorem split_conserves (rules : TableRules) (b0 : Int) (e e1 : Engine) (c1 c2 : Rank)
    (h : e.Conserves rules b0) (hok : e.split c1 c2 = Except.ok e1) : e1.Conserves rules b0 := by
  unfold Engine.split at hok
  split_ifs at hok with hs
  have hstate : e.state = RoundState.playerTurn := by simpa using hs
  have hb := playing_of_conserves rules b0 e (Or.inl hstate) h
  split at hok
  · exact Except.noConfusion hok
  · rename_i hand hget
    split at hok
    · split_ifs at hok with hc
      simp only [Except.ok.injEq] at hok
      subst hok
      refine conserves_of_playing rules b0 _ (Or.inl (by simpa using hstate)) ?_
      simp only [Engine.stake, sum_map_split (fun h => h.wager) e.hands _ hand _ _ hget]
      simp only [Engine.stake] at hb
      omega
    · exact Except.noConfusion hok

theorem surrender_conserves (rules : TableRules) (b0 : Int) (e e1 : Engine)
    (h : e.Conserves rules b0) (hok : e.surrender = Except.ok e1) : e1.Conserves rules b0 := by
  unfold Engine.surrender at hok
  split_ifs at hok with hs
  have hstate : e.state = RoundState.playerTurn := by simpa using hs
  have hb := playing_of_conserves rules b0 e (Or.inl hstate) h
  split at hok
  · exact Except.noConfusion hok
  · rename_i hand hget
    split_ifs at hok with hc
    simp only [Except.ok.injEq] at hok
    subst hok
    refine advance_conserves rules b0 _ (by simpa using hstate) ?_
    simp only [Engine.stake, sum_map_set (fun h => h.wager) e.hands _ hand _ hget]
    simp only [Engine.stake] at hb
    omega

theorem settle_conserves (rules : TableRules) (b0 : Int) (e : Engine) (dealer : List Rank)
    (hb : e.bankroll + e.stake = b0) : (e.settle rules dealer).Conserves rules b0 := by
  simp only [Engine.Conserves, Engine.settle, Engine.payout, Engine.stake, and_true]
  rw [foldl_add_payout (fun h => (settlementOf dealer h).payout rules h.wager)]
  simp only [Engine.stake] at hb
  omega

theorem dealerTurn_conserves (rules : TableRules) (b0 : Int) (e e1 : Engine) (shoe : List Rank)
    (h : e.Conserves rules b0) (hok : e.dealerTurn rules shoe = Except.ok e1) :
    e1.Conserves rules b0 := by
  unfold Engine.dealerTurn at hok
  split_ifs at hok with hs hskip
  · have hstate : e.state = RoundState.dealerTurn := by simpa using hs
    have hb := playing_of_conserves rules b0 e (Or.inr hstate) h
    simp only [Except.ok.injEq] at hok
    subst hok
    exact settle_conserves rules b0 e _ hb
  · have hstate : e.state = RoundState.dealerTurn := by simpa using hs
    have hb := playing_of_conserves rules b0 e (Or.inr hstate) h
    split at hok
    · exact Except.noConfusion hok
    · simp only [Except.ok.injEq] at hok
      subst hok
      exact settle_conserves rules b0 e _ hb

theorem apply_conserves (rules : TableRules) (b0 : Int) (e : Engine) (s : EngineStep)
    (h : e.Conserves rules b0) : (e.apply rules s).Conserves rules b0 := by
  unfold Engine.apply
  split
  · rename_i e1 hok
    cases s with
    | bet amount p1 d1 p2 d2 => exact placeBet_conserves rules b0 e e1 amount p1 d1 p2 d2 h hok
    | hit card => exact hit_conserves rules b0 e e1 card h hok
    | stand => exact stand_conserves rules b0 e e1 h hok
    | double card => exact double_conserves rules b0 e e1 card h hok
    | split c1 c2 => exact split_conserves rules b0 e e1 c1 c2 h hok
    | surrender => exact surrender_conserves rules b0 e e1 h hok
    | dealer shoe => exact dealerTurn_conserves rules b0 e e1 shoe h hok
  · exact h

theorem run_conserves (rules : TableRules) (b0 : Int) (steps : List EngineStep) :
    ∀ e : Engine, e.Conserves rules b0 → (e.run rules steps).Conserves rules b0 := by
  induction steps with
  | nil => intro e h; exact h
  | cons s rest ih =>
    intro e h
    exact ih _ (apply_conserves rules b0 e s h)

/-- C11: for every round played from a betting state to `RoundOver` by any
sequence of requests (bet, hit, stand, double, split, surrender, dealer turn),
the bankroll after it is the bankroll before it minus the stake plus the payout,
and the per-hand nets of its results, one for each Hand, sum to the payout minus
the stake. -/
theorem C11_bankroll_conservation (rules : TableRules) (e0 : Engine) (steps : List EngineStep)
    (hstart : e0.state = RoundState.betting)
    (hover : (e0.run rules steps).state = RoundState.roundOver) :
    (e0.run rules steps).bankroll =
      e0.bankroll - (e0.run rules steps).stake + (e0.run rules steps).payout rules ∧
    (e0.run rules steps).nets.sum =
      (e0.run rules steps).payout rules - (e0.run rules steps).stake ∧
    (e0.run rules steps).nets.length = (e0.run rules steps).hands.length := by
  have h0 : e0.Conserves rules e0.bankroll := by simp [Engine.Conserves, hstart]
  have h := run_conserves rules e0.bankroll steps e0 h0
  simp only [Engine.Conserves, hover] at h
  obtain ⟨hbank, hres⟩ := h
  refine ⟨hbank, ?_, ?_⟩
  · simp only [Engine.nets, hres, List.map_map, Function.comp_def, Engine.payout, Engine.stake]
    exact sum_nets_eq rules _ _
  · simp [Engine.nets, hres]

theorem C11_bankroll_conservation_witness :
    ((exEngine.run exRules exSteps).bankroll =
        exEngine.bankroll - (exEngine.run exRules exSteps).stake +
          (exEngine.run exRules exSteps).payout exRules ∧
      (exEngine.run exRules exSteps).nets.sum =
        (exEngine.run exRules exSteps).payout exRules - (exEngine.run exRules exSteps).stake ∧
      (exEngine.run exRules exSteps).nets.length = (exEngine.run exRules exSteps).hands.length) ∧
    (exEngine.run exRules exSteps).bankroll = 1025 ∧
    (exEngine.run exRules exSteps).stake = 75 ∧
    (exEngine.run exRules exSteps).payout exRules = 100 ∧
    (exEngine.run exRules exSteps).nets = [50, -25] ∧
    (exEngine.run exRules exNaturalSteps).bankroll = 1037 ∧
    (exEngine.run exRules exNaturalSteps).nets = [37] :=
  ⟨C11_bankroll_conservation exRules exEngine exSteps (by decide) (by decide),
    by decide, by decide, by decide, by decide, by decide, by decide⟩

end Blackjack
